import Mathlib

/-!
Shallow embedding of the funlish event-management app core:
the attendance ledger (AttendanceContext, src/unnamed/part_004, third document),
the team allocator (src/src/app/dashboard/teams/page.tsx),
the session manager (AuthContext with session tokens, src/unnamed/part_004,
second document) and the report stats (src/src/app/dashboard/report/page.tsx).

JavaScript numbers are modelled as Int (the code performs no arithmetic on
location values, only the truthiness test of the expression x || null, for
which only equality with 0 matters); timestamps are opaque strings; the
Supabase store is a list of rows.  Fallible database writes are modelled by
explicit success flags; the UNIQUE(committee_member_id, attendance_date)
constraint of the attendance table (src/supabase/schema-v3.sql) is enforced
by the insert/update model just as Postgres enforces it.
-/

namespace Funlish

/-- Models the JavaScript expression v || null on a nullable number:
0 (and null) collapse to null because 0 is falsy. -/
def numOrNull (v : Option Int) : Option Int :=
  match v with
  | some x => if x = 0 then none else some x
  | none => none

/-- Models v || null on a nullable id number (attendance?.id || null). -/
def natOrNull (v : Option Nat) : Option Nat :=
  match v with
  | some x => if x = 0 then none else some x
  | none => none

/-- Models v || null on a nullable string: the empty string is falsy. -/
def strOrNull (v : Option String) : Option String :=
  match v with
  | some s => if s = ("") then none else some s
  | none => none

/-- Attendance status as stored: the CHECK constraint and the TS union type
allow exactly the values attend and absent. -/
inductive Status where
  | attend
  | absent
deriving DecidableEq

/-- Row of the committee_members table. -/
structure CommitteeMember where
  id : Nat
  name : String
  department : String
deriving DecidableEq

/-- Row of the attendance table (schema-v3.sql plus the marked_by migration). -/
structure AttendanceRecord where
  id : Nat
  committee_member_id : Nat
  attendance_date : String
  status : Status
  photo_url : Option String
  latitude : Option Int
  longitude : Option Int
  accuracy : Option Int
  address : Option String
  check_in_time : Option String
  marked_by : Option Nat
deriving DecidableEq

/-- The combined per-member view produced by fetchMembers (MemberAttendance). -/
structure MemberAttendance where
  member_id : Nat
  name : String
  department : String
  attendance_id : Option Nat
  attendance_date : String
  status : Status
  photo_url : Option String
  latitude : Option Int
  longitude : Option Int
  accuracy : Option Int
  address : Option String
  check_in_time : Option String
deriving DecidableEq

/-- Client-supplied location payload (LocationData). -/
structure LocationData where
  latitude : Int
  longitude : Int
  accuracy : Int
  address : Option String
deriving DecidableEq

/-- isBase64Image from src/src/lib/storage.ts: str.startsWith("data:image/"),
written as a character-list prefix test so that it evaluates inside the
kernel. -/
def isBase64Image (s : String) : Bool :=
  List.isPrefixOf (String.data ("data:image/")) s.data

/-- The attendance records the per-date query returns:
supabase.from("attendance").select("*").eq("attendance_date", targetDate). -/
def recordsForDate (table : List AttendanceRecord) (d : String) :
    List AttendanceRecord :=
  table.filter (fun r => r.attendance_date == d)

/-- The attendanceMap lookup in fetchMembers: the map is built by a forEach
of Map.set, so for a given member id the last record in query order wins. -/
def attendanceMapGet (records : List AttendanceRecord) (memberId : Nat) :
    Option AttendanceRecord :=
  (records.filter (fun r => r.committee_member_id == memberId)).getLast?

/-- One element of the combined list built in fetchMembers, with the
attendance?.field || null coercions of the source. -/
def combineMember (targetDate : String) (att : Option AttendanceRecord)
    (m : CommitteeMember) : MemberAttendance :=
  { member_id := m.id
    name := m.name
    department := m.department
    attendance_id := natOrNull (att.map (fun a => a.id))
    attendance_date := targetDate
    status := match att with
      | some a => a.status
      | none => Status.absent
    photo_url := strOrNull (att.bind (fun a => a.photo_url))
    latitude := numOrNull (att.bind (fun a => a.latitude))
    longitude := numOrNull (att.bind (fun a => a.longitude))
    accuracy := numOrNull (att.bind (fun a => a.accuracy))
    address := strOrNull (att.bind (fun a => a.address))
    check_in_time := strOrNull (att.bind (fun a => a.check_in_time)) }

/-- Pure core of fetchMembers: pair every committee member with its
attendance record for the target date, or synthesize an absent entry. -/
def fetchMembers (committeeMembers : List CommitteeMember)
    (table : List AttendanceRecord) (targetDate : String) :
    List MemberAttendance :=
  let dateRecords := recordsForDate table targetDate
  committeeMembers.map
    (fun m => combineMember targetDate (attendanceMapGet dateRecords m.id) m)

/-- The attendanceData object markAttendance writes (its column values). -/
structure AttendanceData where
  committee_member_id : Nat
  attendance_date : String
  status : Status
  photo_url : Option String
  latitude : Option Int
  longitude : Option Int
  accuracy : Option Int
  address : Option String
  check_in_time : Option String
deriving DecidableEq

/-- Computes finalPhotoUrl: photoUrl || null, except that a non-empty base64
data URL is first handed to the external photo storage, whose answer is the
uploadResult parameter. -/
def computeFinalPhotoUrl (photoUrl : Option String)
    (uploadResult : Option String) : Option String :=
  match photoUrl with
  | none => none
  | some s =>
      if s = ("") then none
      else if isBase64Image s then uploadResult
      else some s

/-- Builds the attendanceData object of markAttendance. -/
def mkAttendanceData (memberId : Nat) (selectedDate : String) (status : Status)
    (finalPhotoUrl : Option String) (location : Option LocationData)
    (now : String) : AttendanceData :=
  { committee_member_id := memberId
    attendance_date := selectedDate
    status := status
    photo_url := finalPhotoUrl
    latitude := numOrNull (location.map (fun l => l.latitude))
    longitude := numOrNull (location.map (fun l => l.longitude))
    accuracy := numOrNull (location.map (fun l => l.accuracy))
    address := strOrNull (location.bind (fun l => l.address))
    check_in_time := if status = Status.attend then some now else none }

/-- Applying a supabase update(attendanceData) to a row: every column of the
payload is overwritten; id, created-at, and marked_by (absent from the
payload) are untouched. -/
def applyUpdate (r : AttendanceRecord) (ad : AttendanceData) :
    AttendanceRecord :=
  { r with
    committee_member_id := ad.committee_member_id
    attendance_date := ad.attendance_date
    status := ad.status
    photo_url := ad.photo_url
    latitude := ad.latitude
    longitude := ad.longitude
    accuracy := ad.accuracy
    address := ad.address
    check_in_time := ad.check_in_time }

/-- The row created by insert(attendanceData): the id comes from the SERIAL
sequence and marked_by, not being in the payload, takes its NULL default. -/
def insertRecord (ad : AttendanceData) (newId : Nat) : AttendanceRecord :=
  { id := newId
    committee_member_id := ad.committee_member_id
    attendance_date := ad.attendance_date
    status := ad.status
    photo_url := ad.photo_url
    latitude := ad.latitude
    longitude := ad.longitude
    accuracy := ad.accuracy
    address := ad.address
    check_in_time := ad.check_in_time
    marked_by := none }

/-- Local state update applied by setMembers after a successful write. -/
def localApply (m : MemberAttendance) (ad : AttendanceData) :
    MemberAttendance :=
  { m with
    status := ad.status
    photo_url := ad.photo_url
    latitude := ad.latitude
    longitude := ad.longitude
    accuracy := ad.accuracy
    address := ad.address
    check_in_time := ad.check_in_time }

/-- State of the AttendanceProvider together with the attendance table it
reads and writes: members is the component state, table the database. -/
structure AttState where
  table : List AttendanceRecord
  members : List MemberAttendance
  selectedDate : String
  nextId : Nat
deriving DecidableEq

/-- Result of a markAttendance call: the new state and whether it succeeded
(the source throws on failure; the thrown path leaves both stores as found). -/
structure MarkResult where
  state : AttState
  ok : Bool
deriving DecidableEq

/-- True when the attendance table already holds a row for the pair:
this is the UNIQUE(committee_member_id, attendance_date) constraint check
Postgres performs on insert. -/
def hasPairRow (table : List AttendanceRecord) (mid : Nat) (d : String) :
    Bool :=
  table.any (fun r => r.committee_member_id == mid && r.attendance_date == d)

/-- True when updating the row with the given id to the pair (mid, d) would
violate the uniqueness constraint: some other existing row has the pair. -/
def updateConflict (table : List AttendanceRecord) (aid : Nat) (mid : Nat)
    (d : String) : Bool :=
  table.any
    (fun r => !(r.id == aid) && r.committee_member_id == mid
      && r.attendance_date == d)

/-- The update branch of markAttendance: a supabase
update(attendanceData).eq("id", aid) followed by the local setMembers map.
The write fails (and throws, changing nothing) when the client call fails or
when Postgres rejects the update under the pair-uniqueness constraint. -/
def markUpdate (st : AttState) (memberId aid : Nat) (ad : AttendanceData)
    (writeOk : Bool) : MarkResult :=
  if writeOk && !(updateConflict st.table aid memberId st.selectedDate) then
    { state :=
        { st with
          table := st.table.map
            (fun r => if r.id == aid then applyUpdate r ad else r)
          members := st.members.map
            (fun m => if m.member_id == memberId then localApply m ad
              else m) }
      ok := true }
  else { state := st, ok := false }

/-- The insert branch of markAttendance: a supabase insert(attendanceData)
(rejected by the unique constraint when a row for the pair already exists)
followed by the local setMembers map that also records the new id. -/
def markInsert (st : AttState) (memberId : Nat) (ad : AttendanceData)
    (writeOk : Bool) : MarkResult :=
  if writeOk && !(hasPairRow st.table memberId st.selectedDate) then
    { state :=
        { st with
          table := st.table ++ [insertRecord ad st.nextId]
          members := st.members.map
            (fun m => if m.member_id == memberId then
              { localApply m ad with attendance_id := some st.nextId }
              else m)
          nextId := st.nextId + 1 }
      ok := true }
  else { state := st, ok := false }

/-- Body of markAttendance once the member has been found in local state:
build attendanceData, then update in place if the local view carries an
attendance_id, otherwise insert. -/
def markMember (st : AttState) (member : MemberAttendance) (memberId : Nat)
    (status : Status) (photoUrl : Option String)
    (location : Option LocationData) (uploadResult : Option String)
    (now : String) (writeOk : Bool) : MarkResult :=
  let ad := mkAttendanceData memberId st.selectedDate status
    (computeFinalPhotoUrl photoUrl uploadResult) location now
  match member.attendance_id with
  | some aid => markUpdate st memberId aid ad writeOk
  | none => markInsert st memberId ad writeOk

/-- markAttendance from part_004: find the member in local state, build
attendanceData, then update by attendance_id if the local view has one,
otherwise insert.  writeOk models the supabase call succeeding; a failed or
constraint-rejected write throws, caught by the caller with no state change. -/
def markAttendance (st : AttState) (memberId : Nat) (status : Status)
    (photoUrl : Option String) (location : Option LocationData)
    (uploadResult : Option String) (now : String) (writeOk : Bool) :
    MarkResult :=
  match st.members.find? (fun m => m.member_id == memberId) with
  | none => { state := st, ok := false }
  | some member =>
      markMember st member memberId status photoUrl location uploadResult
        now writeOk

/-! Team allocator (src/src/app/dashboard/teams/page.tsx). -/

/-- Participant as held in the local teams state of the page. -/
structure Participant where
  id : Nat
  name : String
  registeredAt : String
deriving DecidableEq

/-- Team as held in the local state: a group with its member list. -/
structure Team where
  id : Nat
  name : String
  members : List Participant
deriving DecidableEq

/-- Row of the groups table. -/
structure GroupRow where
  id : Nat
  name : String
deriving DecidableEq

/-- Row of the participants table (with the registered_by migration). -/
structure ParticipantRow where
  id : Nat
  name : String
  group_id : Option Nat
  registered_at : String
  registered_by : Option Nat
deriving DecidableEq

/-- The two tables the teams page reads and writes. -/
structure TeamsDB where
  groups : List GroupRow
  participants : List ParticipantRow
deriving DecidableEq

/-- Teams page state: the database plus the fetched local view. -/
structure TeamsPageState where
  db : TeamsDB
  teams : List Team
  totalParticipants : Nat
deriving DecidableEq

def MAX_MEMBERS_PER_TEAM : Nat := 5

def DEFAULT_TEAMS : Nat := 8

/-- Models String.prototype.trim of the source (written over the character
list so that it evaluates inside the kernel): strip whitespace from both
ends. -/
def jsTrim (s : String) : String :=
  String.mk
    (((s.data.dropWhile Char.isWhitespace).reverse.dropWhile
      Char.isWhitespace).reverse)

/-- Models registered_at.split("T")[0]: the text before the first T. -/
def jsSplitHeadT (s : String) : String :=
  String.mk (s.data.takeWhile (fun c => c != ('T')))

/-- Per-registration inputs of handleAddParticipant: the typed name, the
logged-in user, the Math.random draw (as an arbitrary natural reduced mod the
candidate count), the SERIAL ids the two inserts would allocate, the wall
clock, and success flags for the two supabase inserts. -/
structure RegInput where
  name : String
  userId : Option Nat
  pick : Nat
  now : String
  newGroupId : Nat
  newParticipantId : Nat
  groupInsertOk : Bool
  participantInsertOk : Bool
deriving DecidableEq

/-- The participant row built by the insert in handleAddParticipant. -/
def mkParticipantRow (inp : RegInput) (assignedTeamId : Nat) :
    ParticipantRow :=
  { id := inp.newParticipantId
    name := jsTrim inp.name
    group_id := some assignedTeamId
    registered_at := inp.now
    registered_by := inp.userId }

/-- The local Participant built from the returned row:
registeredAt is registered_at.split("T")[0]. -/
def mkLocalParticipant (inp : RegInput) : Participant :=
  { id := inp.newParticipantId
    name := jsTrim inp.name
    registeredAt := jsSplitHeadT inp.now }

/-- Adds the new participant row to the database and the local team list
(the setTeams update mapping over teams by assigned id). -/
def insertParticipant (st : TeamsPageState) (inp : RegInput)
    (assignedTeamId : Nat) : TeamsPageState :=
  { db :=
      { st.db with
        participants := st.db.participants ++ [mkParticipantRow inp assignedTeamId] }
    teams := st.teams.map
      (fun t => if t.id == assignedTeamId then
        { t with members := t.members ++ [mkLocalParticipant inp] } else t)
    totalParticipants := st.totalParticipants + 1 }

/-- handleAddParticipant: filter the under-capacity teams; if none exist,
create a new group named from the current team count first; then insert the
participant into the chosen or created group.  A failed insert throws and is
caught having changed nothing further (in the overflow path the group insert
has already been committed when the participant insert fails). -/
def handleAddParticipant (st : TeamsPageState) (inp : RegInput) :
    TeamsPageState × Bool :=
  if jsTrim inp.name = ("") then (st, false)
  else
    let availableTeams := st.teams.filter
      (fun t => decide (t.members.length < MAX_MEMBERS_PER_TEAM))
    if availableTeams.isEmpty then
      if inp.groupInsertOk then
        let newTeamName := ("Team ") ++ toString (st.teams.length + 1)
        let st1 : TeamsPageState :=
          { st with
            db := { st.db with
              groups := st.db.groups ++ [{ id := inp.newGroupId, name := newTeamName }] }
            teams := st.teams ++ [{ id := inp.newGroupId, name := newTeamName, members := [] }] }
        if inp.participantInsertOk then
          (insertParticipant st1 inp inp.newGroupId, true)
        else (st1, false)
      else (st, false)
    else
      let randomTeam := availableTeams.getD
        (inp.pick % availableTeams.length)
        { id := 0, name := ("") , members := [] }
      if inp.participantInsertOk then
        (insertParticipant st inp randomTeam.id, true)
      else (st, false)

/-- Registers a list of participants one at a time. -/
def registerMany (st : TeamsPageState) (inps : List RegInput) :
    TeamsPageState :=
  inps.foldl (fun s i => (handleAddParticipant s i).1) st

/-- The eight default teams of the seeded database, empty. -/
def defaultTeams : List Team :=
  (List.range DEFAULT_TEAMS).map
    (fun i => { id := i + 1, name := ("Team ") ++ toString (i + 1), members := [] })

/-- Initial teams page state: the eight seeded groups and no participants. -/
def initialTeamsState : TeamsPageState :=
  { db :=
      { groups := (List.range DEFAULT_TEAMS).map
          (fun i => { id := i + 1, name := ("Team ") ++ toString (i + 1) })
        participants := [] }
    teams := defaultTeams
    totalParticipants := 0 }

/-! Invariants of the attendance store.  Uniqueness per pair is the UNIQUE
constraint of the schema; the sync predicate says the fetched local view
agrees with the table for the selected date, which holds for any state the
fetch path (or the local updates of markAttendance) produced. -/

/-- The attendance rows for one (member, date) pair. -/
def pairRecords (table : List AttendanceRecord) (mid : Nat) (d : String) :
    List AttendanceRecord :=
  table.filter (fun r => r.committee_member_id == mid && r.attendance_date == d)

/-- At most one attendance row per (member, date) pair. -/
def UniquePerPair (table : List AttendanceRecord) : Prop :=
  table.Pairwise
    (fun a b => ¬(a.committee_member_id = b.committee_member_id ∧
      a.attendance_date = b.attendance_date))

/-- Table ids are distinct (SERIAL primary key). -/
def IdsNodup (table : List AttendanceRecord) : Prop :=
  (table.map (fun r => r.id)).Nodup

/-- One member entry agrees with the table: either it shows no attendance id
and the table has no row for its pair, or its attendance id is the id of a
table row for its pair. -/
def SyncedMem (table : List AttendanceRecord) (d : String)
    (m : MemberAttendance) : Prop :=
  (m.attendance_id = none ∧ pairRecords table m.member_id d = []) ∨
  (∃ r ∈ table, m.attendance_id = some r.id ∧
    r.committee_member_id = m.member_id ∧ r.attendance_date = d)

/-- The whole local view agrees with the table for the selected date, and
member ids are distinct (roster primary key). -/
def Synced (st : AttState) : Prop :=
  (∀ m ∈ st.members, SyncedMem st.table st.selectedDate m) ∧
  (st.members.map (fun m => m.member_id)).Nodup

/-- Every table id is below the SERIAL cursor. -/
def FreshId (st : AttState) : Prop :=
  ∀ r ∈ st.table, r.id < st.nextId

instance (table : List AttendanceRecord) : Decidable (UniquePerPair table) := by
  unfold UniquePerPair
  infer_instance

instance (table : List AttendanceRecord) : Decidable (IdsNodup table) := by
  unfold IdsNodup
  infer_instance

instance (table : List AttendanceRecord) (d : String) (m : MemberAttendance) :
    Decidable (SyncedMem table d m) := by
  unfold SyncedMem
  infer_instance

instance (st : AttState) : Decidable (Synced st) := by
  unfold Synced
  infer_instance

instance (st : AttState) : Decidable (FreshId st) := by
  unfold FreshId
  infer_instance

/-! Identity and session manager (AuthContext with session tokens). -/

/-- Row of the users table (the columns the session logic touches). -/
structure UserRow where
  id : Nat
  username : String
  password : String
  name : String
  department : String
  role : String
  status : String
  session_token : Option String
  session_updated_at : Option String
deriving DecidableEq

/-- The logged-in user object login builds (sans password). -/
structure LoggedInUser where
  id : Nat
  username : String
  name : String
  department : String
  role : String
  sessionToken : String
deriving DecidableEq

/-- validateSession from part_004: select session_token, status for the id
(single() fails unless exactly one row matches), then require active status
and token equality. -/
def validateSession (users : List UserRow) (userId : Nat) (sessionToken : String) :
    Bool :=
  match users.filter (fun u => u.id == userId) with
  | [u] => u.status == ("active") && u.session_token == some sessionToken
  | _ => false

/-- login from part_004: select the active row for the username (single()),
verify the password with bcrypt.compare (the compare oracle), then store a
freshly generated session token and timestamp on the user row.  Returns the
updated table and the logged-in user on success. -/
def login (users : List UserRow) (username password : String)
    (compare : String → String → Bool) (newSessionToken : String)
    (now : String) (updateOk : Bool) : List UserRow × Option LoggedInUser :=
  match users.filter (fun u => u.username == username && u.status == ("active")) with
  | [u] =>
      if compare password u.password then
        if updateOk then
          (users.map (fun r => if r.id == u.id then
              { r with session_token := some newSessionToken
                       session_updated_at := some now } else r),
           some { id := u.id, username := u.username, name := u.name,
                  department := u.department, role := u.role,
                  sessionToken := newSessionToken })
        else (users, none)
      else (users, none)
  | _ => (users, none)

/-! Report stats (part_004 stats object and report/page.tsx attendanceRate). -/

/-- The stats object of the AttendanceProvider. -/
structure Stats where
  total : Nat
  attend : Nat
  absent : Nat
deriving DecidableEq

/-- stats from part_004: total, attend-count and absent-count of the
combined member list. -/
def stats (members : List MemberAttendance) : Stats :=
  { total := members.length
    attend := (members.filter (fun m => m.status == Status.attend)).length
    absent := (members.filter (fun m => m.status == Status.absent)).length }

/-- attendanceRate from report/page.tsx:
Math.round((attend / total) * 100) when total is positive, else 0.
Math.round of a nonnegative value is floor(x + 1/2), computed exactly here as
a natural-number division. -/
def attendanceRate (total attend : Nat) : Nat :=
  if 0 < total then (200 * attend + total) / (2 * total) else 0

/-! Concrete states used by scenario conjuncts, counterexamples and
witnesses. -/

/-- A one-member roster. -/
def cMember1 : CommitteeMember :=
  { id := 1, name := ("Ali"), department := ("executive") }

/-- Attendance state freshly fetched for an empty table. -/
def attSt0 : AttState :=
  { table := []
    members := fetchMembers [cMember1] [] ("2026-01-15")
    selectedDate := ("2026-01-15")
    nextId := 1 }

/-- An attend record for member 1 whose latitude is the falsy number 0. -/
def cRecordLat0 : AttendanceRecord :=
  { id := 1, committee_member_id := 1, attendance_date := ("2026-01-15")
    status := Status.attend, photo_url := some ("http://x/p.jpg")
    latitude := some 0, longitude := some 1016, accuracy := some 10
    address := none, check_in_time := some ("t0"), marked_by := none }

/-- An absent record for member 1 with no details. -/
def cRecordAbsent : AttendanceRecord :=
  { id := 1, committee_member_id := 1, attendance_date := ("2026-01-15")
    status := Status.absent, photo_url := none
    latitude := none, longitude := none, accuracy := none
    address := none, check_in_time := none, marked_by := none }

/-- State fetched over a table already holding the absent record. -/
def attStWithRow : AttState :=
  { table := [cRecordAbsent]
    members := fetchMembers [cMember1] [cRecordAbsent] ("2026-01-15")
    selectedDate := ("2026-01-15")
    nextId := 2 }

/-- The twelve-member roster of the attendance-rate scenario. -/
def c6Members : List CommitteeMember :=
  (List.range 12).map
    (fun i => { id := i + 1, name := ("M") ++ toString (i + 1),
                department := ("executive") })

/-- Nine attend records for the scenario date. -/
def c6Table : List AttendanceRecord :=
  (List.range 9).map
    (fun i =>
      { id := i + 1, committee_member_id := i + 1
        attendance_date := ("2026-01-15"), status := Status.attend
        photo_url := none, latitude := none, longitude := none
        accuracy := none, address := none, check_in_time := some ("t")
        marked_by := some 1 })

/-- Eight full teams of five. -/
def fullTeams : List Team :=
  (List.range 8).map
    (fun i =>
      { id := i + 1, name := ("Team ") ++ toString (i + 1)
        members := (List.range 5).map
          (fun j => { id := i * 5 + j + 1, name := ("P"),
                      registeredAt := ("d") }) })

/-- Teams page state in which every group is at capacity. -/
def stFullTeams : TeamsPageState :=
  { db :=
      { groups := (List.range 8).map
          (fun i => { id := i + 1, name := ("Team ") ++ toString (i + 1) })
        participants := (List.range 40).map
          (fun k =>
            { id := k + 1, name := ("P"), group_id := some (k / 5 + 1)
              registered_at := ("d"), registered_by := none }) }
    teams := fullTeams
    totalParticipants := 40 }

/-- A registration whose participant insert fails after the group insert
succeeded. -/
def regPartFail : RegInput :=
  { name := ("Zed"), userId := some 1, pick := 0, now := ("d2T10")
    newGroupId := 9, newParticipantId := 41
    groupInsertOk := true, participantInsertOk := false }

/-- A fully successful registration input. -/
def regOk : RegInput :=
  { name := ("Zed"), userId := some 1, pick := 3, now := ("d2T10")
    newGroupId := 9, newParticipantId := 41
    groupInsertOk := true, participantInsertOk := true }

/-- A stored user holding a previously issued session token. -/
def c3User : UserRow :=
  { id := 1, username := ("alice"), password := ("H"), name := ("Alice")
    department := ("executive"), role := ("admin"), status := ("active")
    session_token := some ("oldtok"), session_updated_at := some ("t0") }

/-- The same user row after login stored the fresh token. -/
def c3UserAfter : UserRow :=
  { id := 1, username := ("alice"), password := ("H"), name := ("Alice")
    department := ("executive"), role := ("admin"), status := ("active")
    session_token := some ("newtok"), session_updated_at := some ("t1") }

/-- The logged-in user object the successful login returns. -/
def c3LoggedIn : LoggedInUser :=
  { id := 1, username := ("alice"), name := ("Alice")
    department := ("executive"), role := ("admin")
    sessionToken := ("newtok") }

/-- A bcrypt.compare oracle accepting exactly the stored pair. -/
def c3compare (p h : String) : Bool :=
  p == ("pw") && h == ("H")

/-- Step 1 of the absent/attend/absent scenario: mark member 1 absent. -/
def attStepA : MarkResult :=
  markAttendance attSt0 1 Status.absent none none none ("t1") true

/-- Step 2: mark member 1 attend with photo and location. -/
def attStepB : MarkResult :=
  markAttendance attStepA.state 1 Status.attend (some ("http://x/p.jpg"))
    (some { latitude := 3, longitude := 101, accuracy := 5,
            address := some ("KL") }) none ("t2") true

/-- Step 3: mark member 1 absent again. -/
def attStepC : MarkResult :=
  markAttendance attStepB.state 1 Status.absent none none none ("t3") true

/-- The member counts of the local team list. -/
def teamSizes (teams : List Team) : List Nat :=
  teams.map (fun t => t.members.length)

/-- Invariant holding after n successful registrations from the seeded
state: still the eight default teams with distinct ids, every team within
capacity, and exactly n participants seated overall. -/
def ScenarioInv (st : TeamsPageState) (n : Nat) : Prop :=
  st.teams.length = DEFAULT_TEAMS ∧
  (st.teams.map (fun t => t.id)).Nodup ∧
  (∀ t ∈ st.teams, t.members.length ≤ MAX_MEMBERS_PER_TEAM) ∧
  (teamSizes st.teams).sum = n

/-- A registration input that passes the guard and whose writes succeed. -/
def ValidReg (inp : RegInput) : Prop :=
  jsTrim inp.name ≠ ("") ∧ inp.groupInsertOk = true ∧
  inp.participantInsertOk = true

instance (st : TeamsPageState) (n : Nat) : Decidable (ScenarioInv st n) := by
  unfold ScenarioInv
  infer_instance

instance (inp : RegInput) : Decidable (ValidReg inp) := by
  unfold ValidReg
  infer_instance

/-! Helper lemmas. -/

/-- The two status filters of the stats object partition any member list. -/
theorem length_filter_attend_add_absent (l : List MemberAttendance) :
    (l.filter (fun m => m.status == Status.attend)).length
      + (l.filter (fun m => m.status == Status.absent)).length = l.length := by
  induction l with
  | nil => rfl
  | cons a t ih =>
    cases ha : a.status <;> simp [List.filter_cons, ha] <;> omega

/-! Claim theorems. -/

/-- C6: on any roster produced by the per-date read path, total is the
number of committee members, attend counts the attend entries, absent equals
total minus attend, the rate is 0 for an empty roster, and the 12-member /
9-attend scenario yields stats 12/9/3 with rate 75. -/
theorem stats_and_rate_correct (ms : List CommitteeMember)
    (table : List AttendanceRecord) (d : String) :
    (stats (fetchMembers ms table d)).total = ms.length ∧
    (stats (fetchMembers ms table d)).absent
      = (stats (fetchMembers ms table d)).total
        - (stats (fetchMembers ms table d)).attend ∧
    attendanceRate 0 0 = 0 ∧
    stats (fetchMembers c6Members c6Table ("2026-01-15"))
      = { total := 12, attend := 9, absent := 3 } ∧
    attendanceRate 12 9 = 75 := by
  refine ⟨?_, ?_, by decide, by decide, by decide⟩
  · simp [stats, fetchMembers]
  · have h := length_filter_attend_add_absent (fetchMembers ms table d)
    simp only [stats]
    omega

/-- C5: a registration, successful or failed, only ever appends at most one
participant row and at most one group row; every pre-existing participant row
survives with all its fields (group_id included) unchanged. -/
theorem handleAddParticipant_frame (st : TeamsPageState) (inp : RegInput) :
    (∃ tail, (handleAddParticipant st inp).1.db.participants
        = st.db.participants ++ tail ∧ tail.length ≤ 1) ∧
    (∃ gtail, (handleAddParticipant st inp).1.db.groups
        = st.db.groups ++ gtail ∧ gtail.length ≤ 1) ∧
    (∀ p ∈ st.db.participants,
      p ∈ (handleAddParticipant st inp).1.db.participants) := by
  have hmain :
      (∃ tail, (handleAddParticipant st inp).1.db.participants
          = st.db.participants ++ tail ∧ tail.length ≤ 1) ∧
      (∃ gtail, (handleAddParticipant st inp).1.db.groups
          = st.db.groups ++ gtail ∧ gtail.length ≤ 1) := by
    unfold handleAddParticipant insertParticipant
    by_cases h1 : jsTrim inp.name = ("")
    · simp [h1]
    · simp only [h1, if_false]
      by_cases h2 :
          (st.teams.filter
            (fun t => decide (t.members.length < MAX_MEMBERS_PER_TEAM))).isEmpty
      · simp only [h2, if_true]
        by_cases h3 : inp.groupInsertOk
        · by_cases h4 : inp.participantInsertOk
          · simp only [h3, h4, if_true]
            exact ⟨⟨_, rfl, by simp⟩, ⟨_, rfl, by simp⟩⟩
          · simp only [h3, h4, if_true, Bool.false_eq_true, if_false]
            exact ⟨⟨[], by simp, by simp⟩, ⟨_, rfl, by simp⟩⟩
        · simp only [h3, Bool.false_eq_true, if_false]
          exact ⟨⟨[], by simp, by simp⟩, ⟨[], by simp, by simp⟩⟩
      · simp only [h2, Bool.false_eq_true, if_false]
        by_cases h4 : inp.participantInsertOk
        · simp only [h4, if_true]
          exact ⟨⟨_, rfl, by simp⟩, ⟨[], by simp, by simp⟩⟩
        · simp only [h4, Bool.false_eq_true, if_false]
          exact ⟨⟨[], by simp, by simp⟩, ⟨[], by simp, by simp⟩⟩
  refine ⟨hmain.1, hmain.2, ?_⟩
  intro p hp
  obtain ⟨tail, htail, _⟩ := hmain.1
  rw [htail]
  exact List.mem_append_left _ hp

/-- C8: the failing input for the marked_by claim.  A markAttendance insert
for member 1 on 2026-01-15 by a logged-in user succeeds, yet the inserted
attendance row has marked_by null: the source builds its attendanceData
without any marked_by field (and markAttendance does not even receive the
marking user), so the column keeps its NULL default, contradicting the
migration comment and the dashboard activity feed that reads it. -/
theorem markAttendance_insert_marked_by_is_null :
    (markAttendance attSt0 1 Status.attend none none none ("t1") true).ok
      = true ∧
    (markAttendance attSt0 1 Status.attend none none none ("t1")
        true).state.table.map (fun r => r.marked_by) = [none] := by
  decide

/-- C3: a successful login stores a freshly generated session token on the
user row, after which validateSession rejects every token other than the
fresh one for that user (so every previously issued token fails); and
validateSession accepts only when exactly one row matches the user id, its
status is active, and its stored token equals the supplied one. -/
theorem login_rotates_session_token
    (users : List UserRow) (username password : String)
    (compare : String → String → Bool) (newTok now : String)
    (users2 : List UserRow) (lu : LoggedInUser)
    (h : login users username password compare newTok now true
      = (users2, some lu)) :
    (∀ tOld, tOld ≠ newTok → validateSession users2 lu.id tOld = false) ∧
    (∀ (us : List UserRow) (uid : Nat) (tok : String),
      validateSession us uid tok = true →
      ∃ u, us.filter (fun v => v.id == uid) = [u] ∧
        u.status = ("active") ∧ u.session_token = some tok) := by
  constructor
  · unfold login at h
    cases hf : users.filter
        (fun u => u.username == username && u.status == ("active")) with
    | nil => rw [hf] at h; simp at h
    | cons u rest =>
      cases rest with
      | cons v rest2 => rw [hf] at h; simp at h
      | nil =>
        rw [hf] at h
        cases hcmp : compare password u.password with
        | false => simp [hcmp] at h
        | true =>
          simp only [hcmp, if_true, Prod.mk.injEq, Option.some.injEq] at h
          obtain ⟨hu2, hlu⟩ := h
          intro tOld hne
          unfold validateSession
          have hluid : lu.id = u.id := by rw [← hlu]
          cases hfil : users2.filter (fun v => v.id == lu.id) with
          | nil => rfl
          | cons v rest =>
            cases rest with
            | cons w rest2 => rfl
            | nil =>
              have hvmem : v ∈ users2.filter (fun v => v.id == lu.id) := by
                rw [hfil]; exact List.mem_singleton.mpr rfl
              have hv := List.mem_filter.mp hvmem
              have hvtok : v.session_token = some newTok := by
                have hvin : v ∈ users2 := hv.1
                rw [← hu2] at hvin
                obtain ⟨orig, horig, hveq⟩ := List.mem_map.mp hvin
                by_cases hid : (orig.id == u.id) = true
                · rw [hid] at hveq; simp at hveq; rw [← hveq]
                · rw [Bool.not_eq_true] at hid
                  rw [hid] at hveq; simp at hveq
                  exfalso
                  have hvid : (v.id == lu.id) = true := hv.2
                  rw [← hveq, hluid] at hvid
                  rw [beq_iff_eq] at hvid
                  rw [beq_iff_eq.mpr hvid] at hid
                  simp at hid
              show (v.status == ("active") && v.session_token == some tOld)
                  = false
              rw [hvtok]
              have : (some newTok == some tOld) = false := by
                rw [beq_eq_false_iff_ne]
                intro hc
                exact hne (by injection hc with hc2; exact hc2.symm)
              rw [this, Bool.and_false]
  · intro us uid tok hv
    unfold validateSession at hv
    cases hfil : us.filter (fun v => v.id == uid) with
    | nil => rw [hfil] at hv; simp at hv
    | cons u rest =>
      cases rest with
      | cons w rest2 => rw [hfil] at hv; simp at hv
      | nil =>
        rw [hfil] at hv
        have hv2 := Bool.and_eq_true_iff.mp hv
        refine ⟨u, rfl, ?_, ?_⟩
        · exact beq_iff_eq.mp hv2.1
        · exact beq_iff_eq.mp hv2.2

/-- Witness for C3: logging in as alice rotates the stored token to newtok,
after which the previously issued oldtok fails validateSession. -/
theorem login_rotates_session_token_witness :
    (("oldtok" : String) ≠ ("newtok")) ∧
    validateSession [c3UserAfter] 1 ("oldtok") = false := by
  have h : login [c3User] ("alice") ("pw") c3compare ("newtok") ("t1") true
      = ([c3UserAfter], some c3LoggedIn) := by decide
  exact ⟨by decide,
    (login_rotates_session_token [c3User] ("alice") ("pw") c3compare
      ("newtok") ("t1") [c3UserAfter] c3LoggedIn h).1 ("oldtok") (by decide)⟩

/-- The map lookup of fetchMembers is the last row for the pair: filtering
by date and then by member id is filtering by the pair. -/
theorem attendanceMapGet_eq_pairRecords (table : List AttendanceRecord)
    (d : String) (mid : Nat) :
    attendanceMapGet (recordsForDate table d) mid
      = (pairRecords table mid d).getLast? := by
  unfold attendanceMapGet recordsForDate pairRecords
  rw [List.filter_filter]

/-- Under the uniqueness invariant the rows for a pair that has a member row
form exactly that singleton. -/
theorem pairRecords_singleton (table : List AttendanceRecord)
    (r : AttendanceRecord) (hU : UniquePerPair table) (hr : r ∈ table)
    (hmid : r.committee_member_id = mid) (hd : r.attendance_date = d) :
    pairRecords table mid d = [r] := by
  induction table with
  | nil => cases hr
  | cons a t ih =>
    have hpw := List.pairwise_cons.mp hU
    cases List.mem_cons.mp hr with
    | inl heq =>
      subst heq
      unfold pairRecords
      rw [List.filter_cons]
      have hpred : (r.committee_member_id == mid
          && r.attendance_date == d) = true := by
        rw [hmid, hd]; simp
      rw [hpred, if_pos rfl]
      have hrest : t.filter
          (fun b => b.committee_member_id == mid && b.attendance_date == d)
          = [] := by
        apply List.filter_eq_nil_iff.mpr
        intro b hb
        have hne := hpw.1 b hb
        rw [hmid, hd] at hne
        intro hc
        have hc2 := Bool.and_eq_true_iff.mp hc
        exact hne ⟨(beq_iff_eq.mp hc2.1).symm, (beq_iff_eq.mp hc2.2).symm⟩
      rw [hrest]
    | inr hmem =>
      unfold pairRecords
      rw [List.filter_cons]
      have hpred : (a.committee_member_id == mid
          && a.attendance_date == d) = false := by
        have hne := hpw.1 r hmem
        by_contra hc
        rw [Bool.not_eq_false, Bool.and_eq_true_iff] at hc
        exact hne ⟨by rw [beq_iff_eq.mp hc.1, hmid],
          by rw [beq_iff_eq.mp hc.2, hd]⟩
      rw [hpred]
      simp only [Bool.false_eq_true, if_false]
      exact ih hpw.2 hmem

/-- C2 counterexample: member 1 has an attendance record for 2026-01-15
whose latitude is 0, but the read path reports its latitude as null (the
attendance?.latitude || null coercion), so the member is not paired with
that record's fields as the claim states. -/
theorem fetchMembers_latitude_zero_counterexample :
    [cRecordLat0].map (fun r => r.committee_member_id) = [1] ∧
    [cRecordLat0].map (fun r => r.attendance_date) = [("2026-01-15")] ∧
    [cRecordLat0].map (fun r => r.latitude) = [some 0] ∧
    (fetchMembers [cMember1] [cRecordLat0] ("2026-01-15")).map
      (fun e => e.member_id) = [1] ∧
    (fetchMembers [cMember1] [cRecordLat0] ("2026-01-15")).map
      (fun e => e.latitude) = [none] := by
  decide

/-- C2 amended: the read path returns exactly one entry per committee member
in roster order (so none is missing, and none is duplicated when roster ids
are distinct); a member with no record for the date is synthesized as absent
with all detail fields null; and under the per-pair uniqueness invariant a
member with a record for the date is paired with that record's fields after
the JavaScript-falsiness coercion of the source (a 0 numeric field or empty
string field is reported as null). -/
theorem fetchMembers_one_entry_per_member (ms : List CommitteeMember)
    (table : List AttendanceRecord) (d : String) :
    ((fetchMembers ms table d).map (fun e => e.member_id)
      = ms.map (fun m => m.id)) ∧
    ((ms.map (fun m => m.id)).Nodup →
      ((fetchMembers ms table d).map (fun e => e.member_id)).Nodup) ∧
    (∀ m ∈ ms, pairRecords table m.id d = [] →
      ∃ e ∈ fetchMembers ms table d, e.member_id = m.id ∧
        e.status = Status.absent ∧ e.attendance_id = none ∧
        e.photo_url = none ∧ e.latitude = none ∧ e.longitude = none ∧
        e.accuracy = none ∧ e.address = none ∧ e.check_in_time = none) ∧
    (UniquePerPair table → ∀ m ∈ ms, ∀ r ∈ table,
      r.committee_member_id = m.id → r.attendance_date = d →
      ∃ e ∈ fetchMembers ms table d, e.member_id = m.id ∧
        e.status = r.status ∧ e.attendance_id = natOrNull (some r.id) ∧
        e.photo_url = strOrNull r.photo_url ∧
        e.latitude = numOrNull r.latitude ∧
        e.longitude = numOrNull r.longitude ∧
        e.accuracy = numOrNull r.accuracy ∧
        e.address = strOrNull r.address ∧
        e.check_in_time = strOrNull r.check_in_time) := by
  refine ⟨?_, ?_, ?_, ?_⟩
  · unfold fetchMembers
    rw [List.map_map]
    apply List.map_congr_left
    intro m _
    rfl
  · intro hnd
    have h1 : (fetchMembers ms table d).map (fun e => e.member_id)
        = ms.map (fun m => m.id) := by
      unfold fetchMembers
      rw [List.map_map]
      apply List.map_congr_left
      intro m _
      rfl
    rw [h1]
    exact hnd
  · intro m hm hnone
    refine ⟨combineMember d (attendanceMapGet (recordsForDate table d) m.id) m,
      List.mem_map.mpr ⟨m, hm, rfl⟩, ?_⟩
    have hget : attendanceMapGet (recordsForDate table d) m.id = none := by
      rw [attendanceMapGet_eq_pairRecords, hnone]
      rfl
    rw [hget]
    exact ⟨rfl, rfl, rfl, rfl, rfl, rfl, rfl, rfl, rfl⟩
  · intro hU m hm r hr hmid hd
    refine ⟨combineMember d (attendanceMapGet (recordsForDate table d) m.id) m,
      List.mem_map.mpr ⟨m, hm, rfl⟩, ?_⟩
    have hget : attendanceMapGet (recordsForDate table d) m.id = some r := by
      rw [attendanceMapGet_eq_pairRecords,
        pairRecords_singleton table r hU hr hmid hd]
      rfl
    rw [hget]
    exact ⟨rfl, rfl, rfl, rfl, rfl, rfl, rfl, rfl, rfl⟩

/-- Witness for C2 amended: on the one-member roster with the latitude-0
attend record, the read path returns the entry for member 1 carrying the
record's status and its coerced fields. -/
theorem fetchMembers_one_entry_per_member_witness :
    UniquePerPair [cRecordLat0] ∧
    ∃ e ∈ fetchMembers [cMember1] [cRecordLat0] ("2026-01-15"),
      e.member_id = 1 ∧ e.status = Status.attend ∧
      e.attendance_id = natOrNull (some 1) ∧
      e.photo_url = strOrNull (some ("http://x/p.jpg")) ∧
      e.latitude = numOrNull (some 0) ∧
      e.longitude = numOrNull (some 1016) ∧
      e.accuracy = numOrNull (some 10) ∧
      e.address = strOrNull none ∧
      e.check_in_time = strOrNull (some ("t0")) := by
  have hU : UniquePerPair [cRecordLat0] := by
    unfold UniquePerPair
    exact List.pairwise_singleton _ _
  refine ⟨hU, ?_⟩
  have h := (fetchMembers_one_entry_per_member [cMember1] [cRecordLat0]
    ("2026-01-15")).2.2.2 hU cMember1 (by decide) cRecordLat0
    (by decide) (by decide) (by decide)
  obtain ⟨e, he, h1, h2, h3, h4, h5, h6, h7, h8, h9⟩ := h
  exact ⟨e, he, h1, h2, h3, h4, h5, h6, h7, h8, h9⟩

/-- Updating a list by a key that occurs exactly once (the supabase update
by unique id, and the setTeams / setMembers local maps) rewrites exactly the
one element with that key and leaves the rest in place. -/
theorem update_by_key_split {α : Type} (key : α → Nat) (g : α → α)
    (l : List α) (t : α) (hnd : (l.map key).Nodup) (ht : t ∈ l) :
    ∃ l₁ l₂, l = l₁ ++ t :: l₂ ∧
      l.map (fun x => if key x == key t then g x else x)
        = l₁ ++ g t :: l₂ ∧
      (∀ x ∈ l₁, key x ≠ key t) ∧ (∀ x ∈ l₂, key x ≠ key t) := by
  induction l with
  | nil => cases ht
  | cons a rest ih =>
    rw [List.map_cons, List.nodup_cons] at hnd
    cases List.mem_cons.mp ht with
    | inl heq =>
      subst heq
      refine ⟨[], rest, rfl, ?_, ?_, ?_⟩
      · rw [List.map_cons]
        have hid : ∀ x ∈ rest,
            (fun x => if key x == key t then g x else x) x = x := by
          intro x hx
          have hne : key x ≠ key t := by
            intro hc
            exact hnd.1 (hc ▸ List.mem_map_of_mem key hx)
          simp only [beq_eq_false_iff_ne.mpr hne, Bool.false_eq_true,
            if_false]
        rw [List.nil_append]
        have hhead : (if key t == key t then g t else t) = g t := by
          simp
        rw [hhead]
        congr 1
        exact (List.map_congr_left hid).trans (List.map_id rest)
      · intro x hx
        cases hx
      · intro x hx hc
        exact hnd.1 (hc ▸ List.mem_map_of_mem key hx)
    | inr hmem =>
      have hka : key a ≠ key t := by
        intro hc
        exact hnd.1 (hc ▸ List.mem_map_of_mem key hmem)
      obtain ⟨l₁, l₂, he1, he2, h3, h4⟩ := ih hnd.2 hmem
      refine ⟨a :: l₁, l₂, ?_, ?_, ?_, h4⟩
      · rw [List.cons_append, ← he1]
      · rw [List.map_cons, he2, List.cons_append]
        congr 1
        simp only [beq_eq_false_iff_ne.mpr hka, Bool.false_eq_true, if_false]
      · intro x hx
        cases List.mem_cons.mp hx with
        | inl hxa => rw [hxa]; exact hka
        | inr hxl => exact h3 x hxl

/-- Reduction of markAttendance when the member lookup succeeds. -/
theorem markAttendance_found (st : AttState) (memberId : Nat)
    (status : Status) (photoUrl : Option String)
    (location : Option LocationData) (uploadResult : Option String)
    (now : String) (writeOk : Bool) (member : MemberAttendance)
    (hfind : st.members.find? (fun m => m.member_id == memberId)
      = some member) :
    markAttendance st memberId status photoUrl location uploadResult now
        writeOk
      = markMember st member memberId status photoUrl location uploadResult
        now writeOk := by
  unfold markAttendance
  rw [hfind]

/-- Reduction of markMember in the update case. -/
theorem markMember_update (st : AttState) (member : MemberAttendance)
    (memberId : Nat) (status : Status) (photoUrl : Option String)
    (location : Option LocationData) (uploadResult : Option String)
    (now : String) (writeOk : Bool) (aid : Nat)
    (haid : member.attendance_id = some aid) :
    markMember st member memberId status photoUrl location uploadResult now
        writeOk
      = markUpdate st memberId aid
        (mkAttendanceData memberId st.selectedDate status
          (computeFinalPhotoUrl photoUrl uploadResult) location now)
        writeOk := by
  unfold markMember
  rw [haid]

/-- Reduction of markMember in the insert case. -/
theorem markMember_insert (st : AttState) (member : MemberAttendance)
    (memberId : Nat) (status : Status) (photoUrl : Option String)
    (location : Option LocationData) (uploadResult : Option String)
    (now : String) (writeOk : Bool)
    (haid : member.attendance_id = none) :
    markMember st member memberId status photoUrl location uploadResult now
        writeOk
      = markInsert st memberId
        (mkAttendanceData memberId st.selectedDate status
          (computeFinalPhotoUrl photoUrl uploadResult) location now)
        writeOk := by
  unfold markMember
  rw [haid]

/-- C10 counterexample: member 1 already has a record; marking attend while
supplying a location whose latitude is the number 0 succeeds, yet the
updated row stores latitude null instead of the newly supplied 0, because
the payload computes location?.latitude || null and 0 is falsy. -/
theorem markAttendance_update_latitude_zero_counterexample :
    (markAttendance attStWithRow 1 Status.attend none
        (some { latitude := 0, longitude := 1016, accuracy := 10,
                address := none }) none ("t2") true).ok = true ∧
    (markAttendance attStWithRow 1 Status.attend none
        (some { latitude := 0, longitude := 1016, accuracy := 10,
                address := none }) none ("t2") true).state.table.map
      (fun r => r.latitude) = [none] := by
  decide

/-- C10 amended: a successful markAttendance on a pair that already has a
record (a synced local view holding its attendance id) rewrites exactly that
row: photo_url, latitude, longitude, accuracy, address and check_in_time are
all overwritten with the supplied values after the JavaScript-falsiness
coercion of the source (a supplied 0 number or empty string is stored as
null), every field not supplied becomes null, check_in_time is now exactly
when the status is attend, the untouched marked_by column survives, and no
other row changes — so an absent mark after a photo-verified attend erases
the stored photo and location data. -/
theorem markAttendance_update_overwrites (st : AttState) (memberId : Nat)
    (status : Status) (photoUrl : Option String)
    (location : Option LocationData) (uploadResult : Option String)
    (now : String) (writeOk : Bool) (member : MemberAttendance) (aid : Nat)
    (hfind : st.members.find? (fun m => m.member_id == memberId)
      = some member)
    (haid : member.attendance_id = some aid)
    (hsync : Synced st) (hids : IdsNodup st.table)
    (hok : (markAttendance st memberId status photoUrl location uploadResult
      now writeOk).ok = true) :
    ∃ tbl, (markAttendance st memberId status photoUrl location uploadResult
        now writeOk).state.table = tbl ∧
      tbl.length = st.table.length ∧
      (∀ x ∈ st.table, x.id ≠ aid → x ∈ tbl) ∧
      ∃ rNew ∈ tbl, rNew.id = aid ∧ rNew.status = status ∧
        rNew.photo_url = computeFinalPhotoUrl photoUrl uploadResult ∧
        rNew.latitude = numOrNull (location.map (fun l => l.latitude)) ∧
        rNew.longitude = numOrNull (location.map (fun l => l.longitude)) ∧
        rNew.accuracy = numOrNull (location.map (fun l => l.accuracy)) ∧
        rNew.address = strOrNull (location.bind (fun l => l.address)) ∧
        rNew.check_in_time
          = (if status = Status.attend then some now else none) ∧
        (∃ rOld ∈ st.table, rOld.id = aid
          ∧ rNew.marked_by = rOld.marked_by) ∧
        (location = none → rNew.latitude = none ∧ rNew.longitude = none ∧
          rNew.accuracy = none ∧ rNew.address = none) ∧
        (photoUrl = none → rNew.photo_url = none) ∧
        (status = Status.absent → rNew.check_in_time = none) := by
  have hmem : member ∈ st.members := List.mem_of_find?_eq_some hfind
  obtain ⟨r0, hr0mem, hstok, hcm, hdate⟩ := by
    cases hsync.1 member hmem with
    | inl h => rw [haid] at h; cases h.1
    | inr h => exact h
  have hr0id : r0.id = aid := by
    rw [haid] at hstok
    exact (Option.some.inj hstok).symm
  subst hr0id
  have hred := (markAttendance_found st memberId status photoUrl location
    uploadResult now writeOk member hfind).trans
    (markMember_update st member memberId status photoUrl location
      uploadResult now writeOk r0.id haid)
  rw [hred] at hok ⊢
  unfold markUpdate at hok ⊢
  cases hcond : writeOk
      && !(updateConflict st.table r0.id memberId st.selectedDate) with
  | false =>
    rw [hcond] at hok
    simp at hok
  | true =>
    rw [if_pos (rfl : true = true)]
    have hids2 : (st.table.map (fun r => r.id)).Nodup := hids
    obtain ⟨l₁, l₂, hsplit, hmap, hl₁, hl₂⟩ := update_by_key_split
      (fun r => r.id)
      (fun r => applyUpdate r (mkAttendanceData memberId st.selectedDate
        status (computeFinalPhotoUrl photoUrl uploadResult) location now))
      st.table r0 hids2 hr0mem
    have hmap2 : st.table.map
        (fun r => if r.id == r0.id then
          applyUpdate r (mkAttendanceData memberId st.selectedDate status
            (computeFinalPhotoUrl photoUrl uploadResult) location now)
          else r)
        = l₁ ++ applyUpdate r0 (mkAttendanceData memberId st.selectedDate
            status (computeFinalPhotoUrl photoUrl uploadResult) location
            now) :: l₂ := hmap
    refine ⟨_, rfl, ?_, ?_, ?_⟩
    · rw [hmap2, hsplit]
      simp
    · intro x hx hxid
      rw [hmap2]
      rw [hsplit] at hx
      cases List.mem_append.mp hx with
      | inl h1 => exact List.mem_append_left _ h1
      | inr h2 =>
        cases List.mem_cons.mp h2 with
        | inl hx0 => exact absurd (by rw [hx0]) hxid
        | inr h3 =>
          exact List.mem_append_right _ (List.mem_cons_of_mem _ h3)
    · refine ⟨applyUpdate r0 (mkAttendanceData memberId st.selectedDate
        status (computeFinalPhotoUrl photoUrl uploadResult) location now),
        ?_, rfl, rfl, rfl, rfl, rfl, rfl, rfl, rfl,
        ⟨r0, hr0mem, rfl, rfl⟩, ?_, ?_, ?_⟩
      · rw [hmap2]
        exact List.mem_append_right _ (List.mem_cons_self _ _)
      · intro h
        subst h
        exact ⟨rfl, rfl, rfl, rfl⟩
      · intro h
        subst h
        rfl
      · intro h
        subst h
        rfl

/-- Witness for C10 amended: updating member 1 with a fresh attend mark on
the synced one-row state keeps the table size at one. -/
theorem markAttendance_update_overwrites_witness :
    Synced attStWithRow ∧ IdsNodup attStWithRow.table ∧
    (markAttendance attStWithRow 1 Status.attend (some ("http://x/p.jpg"))
        (some { latitude := 3, longitude := 101, accuracy := 5,
                address := some ("KL") }) none ("t2")
        true).state.table.length = attStWithRow.table.length := by
  refine ⟨by decide, by decide, ?_⟩
  obtain ⟨tbl, htbl, hlen, _, _⟩ := markAttendance_update_overwrites
    attStWithRow 1 Status.attend (some ("http://x/p.jpg"))
    (some { latitude := 3, longitude := 101, accuracy := 5,
            address := some ("KL") }) none ("t2") true
    { member_id := 1, name := ("Ali"), department := ("executive")
      attendance_id := some 1, attendance_date := ("2026-01-15")
      status := Status.absent, photo_url := none, latitude := none
      longitude := none, accuracy := none, address := none
      check_in_time := none }
    1 (by decide) (by decide) (by decide) (by decide) (by decide)
  rw [htbl]
  exact hlen

/-- If the insert-side constraint check passes, no row of the table matches
the pair. -/
theorem hasPairRow_false_forall (table : List AttendanceRecord) (mid : Nat)
    (d : String) (h : hasPairRow table mid d = false) :
    ∀ x ∈ table,
      (x.committee_member_id == mid && x.attendance_date == d) = false := by
  intro x hx
  by_contra hc
  rw [Bool.not_eq_false] at hc
  have hany : hasPairRow table mid d = true := by
    unfold hasPairRow
    exact List.any_eq_true.mpr ⟨x, hx, hc⟩
  rw [h] at hany
  cases hany

/-- If the update-side constraint check passes, no row other than the
updated one matches the pair. -/
theorem updateConflict_false_forall (table : List AttendanceRecord)
    (aid mid : Nat) (d : String) (h : updateConflict table aid mid d = false) :
    ∀ x ∈ table, x.id ≠ aid →
      (x.committee_member_id == mid && x.attendance_date == d) = false := by
  intro x hx hxid
  by_contra hc
  rw [Bool.not_eq_false] at hc
  have hany : updateConflict table aid mid d = true := by
    unfold updateConflict
    refine List.any_eq_true.mpr ⟨x, hx, ?_⟩
    obtain ⟨hb, hcdate⟩ := Bool.and_eq_true_iff.mp hc
    rw [beq_eq_false_iff_ne.mpr hxid, hb, hcdate]
    rfl
  rw [h] at hany
  cases hany

/-- pairRecords distributes over append. -/
theorem pairRecords_append (l₁ l₂ : List AttendanceRecord) (mid : Nat)
    (d : String) :
    pairRecords (l₁ ++ l₂) mid d
      = pairRecords l₁ mid d ++ pairRecords l₂ mid d := by
  unfold pairRecords
  exact List.filter_append _ _

/-- pairRecords is empty when every row fails the pair predicate. -/
theorem pairRecords_nil_of_forall (l : List AttendanceRecord) (mid : Nat)
    (d : String)
    (h : ∀ x ∈ l,
      (x.committee_member_id == mid && x.attendance_date == d) = false) :
    pairRecords l mid d = [] := by
  unfold pairRecords
  apply List.filter_eq_nil_iff.mpr
  intro x hx
  rw [h x hx]
  simp

/-- C7: a successful markAttendance leaves exactly one row for the marked
pair, whose status is the supplied one and whose check_in_time is the now
timestamp exactly when the status is attend and null when it is absent; and
the absent/attend/absent scenario on one member and one date ends with
exactly one row, status absent, check_in_time null. -/
theorem markAttendance_check_in_time_semantics (st : AttState)
    (memberId : Nat) (status : Status) (photoUrl : Option String)
    (location : Option LocationData) (uploadResult : Option String)
    (now : String) (writeOk : Bool) (member : MemberAttendance)
    (hfind : st.members.find? (fun m => m.member_id == memberId)
      = some member)
    (hsync : Synced st) (hids : IdsNodup st.table)
    (hok : (markAttendance st memberId status photoUrl location uploadResult
      now writeOk).ok = true) :
    (∃ r, pairRecords (markAttendance st memberId status photoUrl location
          uploadResult now writeOk).state.table memberId st.selectedDate
        = [r] ∧
      r.status = status ∧
      r.check_in_time = (if status = Status.attend then some now else none)) ∧
    (attStepA.ok = true ∧ attStepB.ok = true ∧ attStepC.ok = true ∧
      attStepC.state.table.length = 1 ∧
      attStepC.state.table.map (fun r => r.status) = [Status.absent] ∧
      attStepC.state.table.map (fun r => r.check_in_time) = [none]) := by
  refine ⟨?_, by decide⟩
  rw [markAttendance_found st memberId status photoUrl location uploadResult
    now writeOk member hfind] at hok ⊢
  cases hatt : member.attendance_id with
  | none =>
    rw [markMember_insert st member memberId status photoUrl location
      uploadResult now writeOk hatt] at hok ⊢
    unfold markInsert at hok ⊢
    cases hcond : writeOk
        && !(hasPairRow st.table memberId st.selectedDate) with
    | false =>
      rw [hcond] at hok
      simp at hok
    | true =>
      rw [if_pos (rfl : true = true)]
      have hhp : hasPairRow st.table memberId st.selectedDate = false := by
        cases hhh : hasPairRow st.table memberId st.selectedDate with
        | false => rfl
        | true => rw [hhh] at hcond; simp at hcond
      refine ⟨insertRecord (mkAttendanceData memberId st.selectedDate status
        (computeFinalPhotoUrl photoUrl uploadResult) location now) st.nextId,
        ?_, rfl, rfl⟩
      rw [pairRecords_append,
        pairRecords_nil_of_forall st.table memberId st.selectedDate
          (hasPairRow_false_forall st.table memberId st.selectedDate hhp)]
      rw [List.nil_append]
      unfold pairRecords
      rw [List.filter_cons]
      have hpred : ((insertRecord (mkAttendanceData memberId st.selectedDate
          status (computeFinalPhotoUrl photoUrl uploadResult) location now)
          st.nextId).committee_member_id == memberId
          && (insertRecord (mkAttendanceData memberId st.selectedDate status
          (computeFinalPhotoUrl photoUrl uploadResult) location now)
          st.nextId).attendance_date == st.selectedDate) = true := by
        simp [insertRecord, mkAttendanceData]
      rw [hpred, if_pos rfl]
      rfl
  | some aid =>
    rw [markMember_update st member memberId status photoUrl location
      uploadResult now writeOk aid hatt] at hok ⊢
    have hmem : member ∈ st.members := List.mem_of_find?_eq_some hfind
    have hpm := @List.find?_some MemberAttendance
      (fun m => m.member_id == memberId) member st.members hfind
    have hmid : member.member_id = memberId := beq_iff_eq.mp hpm
    obtain ⟨r0, hr0mem, hstok, hcm, hdate⟩ := by
      cases hsync.1 member hmem with
      | inl h => rw [hatt] at h; cases h.1
      | inr h => exact h
    have hr0id : r0.id = aid := by
      rw [hatt] at hstok
      exact (Option.some.inj hstok).symm
    subst hr0id
    unfold markUpdate at hok ⊢
    cases hcond : writeOk
        && !(updateConflict st.table r0.id memberId st.selectedDate) with
    | false =>
      rw [hcond] at hok
      simp at hok
    | true =>
      rw [if_pos (rfl : true = true)]
      have hconf : updateConflict st.table r0.id memberId st.selectedDate
          = false := by
        cases hhh : updateConflict st.table r0.id memberId st.selectedDate with
        | false => rfl
        | true => rw [hhh] at hcond; simp at hcond
      have hforall := updateConflict_false_forall st.table r0.id memberId
        st.selectedDate hconf
      have hids2 : (st.table.map (fun r => r.id)).Nodup := hids
      obtain ⟨l₁, l₂, hsplit, hmap, hl₁, hl₂⟩ := update_by_key_split
        (fun r => r.id)
        (fun r => applyUpdate r (mkAttendanceData memberId st.selectedDate
          status (computeFinalPhotoUrl photoUrl uploadResult) location now))
        st.table r0 hids2 hr0mem
      have hmap2 : st.table.map
          (fun r => if r.id == r0.id then
            applyUpdate r (mkAttendanceData memberId st.selectedDate status
              (computeFinalPhotoUrl photoUrl uploadResult) location now)
            else r)
          = l₁ ++ applyUpdate r0 (mkAttendanceData memberId st.selectedDate
              status (computeFinalPhotoUrl photoUrl uploadResult) location
              now) :: l₂ := hmap
      refine ⟨applyUpdate r0 (mkAttendanceData memberId st.selectedDate
        status (computeFinalPhotoUrl photoUrl uploadResult) location now),
        ?_, rfl, rfl⟩
      rw [hmap2, pairRecords_append]
      have h1 : pairRecords l₁ memberId st.selectedDate = [] := by
        apply pairRecords_nil_of_forall
        intro x hx
        exact hforall x (by rw [hsplit]; exact List.mem_append_left _ hx)
          (hl₁ x hx)
      have h2 : pairRecords l₂ memberId st.selectedDate = [] := by
        apply pairRecords_nil_of_forall
        intro x hx
        exact hforall x
          (by rw [hsplit];
              exact List.mem_append_right _ (List.mem_cons_of_mem _ hx))
          (hl₂ x hx)
      rw [h1, List.nil_append]
      unfold pairRecords
      rw [List.filter_cons]
      have hpred : ((applyUpdate r0 (mkAttendanceData memberId st.selectedDate
          status (computeFinalPhotoUrl photoUrl uploadResult) location
          now)).committee_member_id == memberId
          && (applyUpdate r0 (mkAttendanceData memberId st.selectedDate
          status (computeFinalPhotoUrl photoUrl uploadResult) location
          now)).attendance_date == st.selectedDate) = true := by
        simp [applyUpdate, mkAttendanceData]
      rw [hpred, if_pos rfl]
      rw [show List.filter (fun r => r.committee_member_id == memberId
          && r.attendance_date == st.selectedDate) l₂
          = pairRecords l₂ memberId st.selectedDate from rfl, h2]

/-- Witness for C7: marking member 1 attend on the empty-table state yields
exactly one row for the pair with check_in_time set to the call timestamp. -/
theorem markAttendance_check_in_time_semantics_witness :
    Synced attSt0 ∧
    ∃ r, pairRecords (markAttendance attSt0 1 Status.attend none none none
        ("t1") true).state.table 1 ("2026-01-15") = [r] ∧
      r.status = Status.attend ∧ r.check_in_time = some ("t1") := by
  refine ⟨by decide, ?_⟩
  obtain ⟨⟨r, h1, h2, h3⟩, _⟩ := markAttendance_check_in_time_semantics
    attSt0 1 Status.attend none none none ("t1") true
    { member_id := 1, name := ("Ali"), department := ("executive")
      attendance_id := none, attendance_date := ("2026-01-15")
      status := Status.absent, photo_url := none, latitude := none
      longitude := none, accuracy := none, address := none
      check_in_time := none }
    (by decide) (by decide) (by decide) (by decide)
  exact ⟨r, h1, h2, h3.trans (by simp)⟩

/-- C9 counterexample: with all eight groups at capacity, a registration
whose group insert succeeds and whose participant insert then fails returns
an error but leaves the freshly created ninth group in the store: the
stored state is not exactly what it was before the operation, refuting the
single-atomic-write claim for the overflow path of registration. -/
theorem registration_failure_leaves_group_counterexample :
    (handleAddParticipant stFullTeams regPartFail).2 = false ∧
    (handleAddParticipant stFullTeams regPartFail).1.db.participants
      = stFullTeams.db.participants ∧
    (handleAddParticipant stFullTeams regPartFail).1.db.groups
      = stFullTeams.db.groups ++ [{ id := 9, name := ("Team 9") }] ∧
    (handleAddParticipant stFullTeams regPartFail).1.db
      ≠ stFullTeams.db := by
  decide

/-- C9 amended: a failed markAttendance leaves the attendance table and the
local view exactly as they were (the row write is single and atomic); a
failed registration never leaves a partial participant row, and leaves the
store exactly as it was whenever an under-capacity group existed (or the
group insert itself failed) — but in the overflow path the group insert is
a separate first write, so a subsequent participant-insert failure leaves
exactly the one newly created empty group behind. -/
theorem failed_operations_leave_state (st : AttState) (memberId : Nat)
    (status : Status) (photoUrl : Option String)
    (location : Option LocationData) (uploadResult : Option String)
    (now : String) (writeOk : Bool) (ts : TeamsPageState) (inp : RegInput) :
    ((markAttendance st memberId status photoUrl location uploadResult now
        writeOk).ok = false →
      (markAttendance st memberId status photoUrl location uploadResult now
        writeOk).state = st) ∧
    ((handleAddParticipant ts inp).2 = false →
      (handleAddParticipant ts inp).1.db.participants
        = ts.db.participants) ∧
    ((handleAddParticipant ts inp).2 = false →
      (handleAddParticipant ts inp).1.db.groups = ts.db.groups ∨
      (handleAddParticipant ts inp).1.db.groups = ts.db.groups
        ++ [{ id := inp.newGroupId,
              name := ("Team ") ++ toString (ts.teams.length + 1) }]) ∧
    ((handleAddParticipant ts inp).2 = false →
      (∃ t ∈ ts.teams, t.members.length < MAX_MEMBERS_PER_TEAM) →
      (handleAddParticipant ts inp).1.db = ts.db) := by
  have hmark : (markAttendance st memberId status photoUrl location
      uploadResult now writeOk).ok = false →
      (markAttendance st memberId status photoUrl location uploadResult now
        writeOk).state = st := by
    intro hfail
    cases hfind : st.members.find? (fun m => m.member_id == memberId) with
    | none =>
      unfold markAttendance
      rw [hfind]
    | some member =>
      rw [markAttendance_found st memberId status photoUrl location
        uploadResult now writeOk member hfind] at hfail ⊢
      cases hatt : member.attendance_id with
      | some aid =>
        rw [markMember_update st member memberId status photoUrl location
          uploadResult now writeOk aid hatt] at hfail ⊢
        unfold markUpdate at hfail ⊢
        cases hcond : writeOk
            && !(updateConflict st.table aid memberId st.selectedDate) with
        | true => rw [hcond] at hfail; simp at hfail
        | false => rw [if_neg (by decide : ¬(false = true))]
      | none =>
        rw [markMember_insert st member memberId status photoUrl location
          uploadResult now writeOk hatt] at hfail ⊢
        unfold markInsert at hfail ⊢
        cases hcond : writeOk
            && !(hasPairRow st.table memberId st.selectedDate) with
        | true => rw [hcond] at hfail; simp at hfail
        | false => rw [if_neg (by decide : ¬(false = true))]
  have hreg : (handleAddParticipant ts inp).2 = false →
      ((handleAddParticipant ts inp).1.db.participants
        = ts.db.participants) ∧
      ((handleAddParticipant ts inp).1.db.groups = ts.db.groups ∨
        (handleAddParticipant ts inp).1.db.groups = ts.db.groups
          ++ [{ id := inp.newGroupId,
                name := ("Team ") ++ toString (ts.teams.length + 1) }]) ∧
      ((∃ t ∈ ts.teams, t.members.length < MAX_MEMBERS_PER_TEAM) →
        (handleAddParticipant ts inp).1.db = ts.db) := by
    intro hfail
    unfold handleAddParticipant at hfail ⊢
    by_cases h1 : jsTrim inp.name = ("")
    · rw [if_pos h1] at hfail ⊢
      exact ⟨rfl, Or.inl rfl, fun _ => rfl⟩
    · rw [if_neg h1] at hfail ⊢
      by_cases h2 : (ts.teams.filter
          (fun t => decide (t.members.length < MAX_MEMBERS_PER_TEAM))).isEmpty
          = true
      · rw [if_pos h2] at hfail ⊢
        have hnone : ¬∃ t ∈ ts.teams,
            t.members.length < MAX_MEMBERS_PER_TEAM := by
          intro ⟨t, ht, hlt⟩
          have htf : t ∈ ts.teams.filter
              (fun t => decide (t.members.length < MAX_MEMBERS_PER_TEAM)) :=
            List.mem_filter.mpr ⟨ht, by simpa using hlt⟩
          rw [List.isEmpty_iff] at h2
          rw [h2] at htf
          cases htf
        by_cases h3 : inp.groupInsertOk = true
        · rw [if_pos h3] at hfail ⊢
          by_cases h4 : inp.participantInsertOk = true
          · rw [if_pos h4] at hfail
            simp at hfail
          · rw [if_neg h4] at hfail ⊢
            exact ⟨rfl, Or.inr rfl, fun hex => absurd hex hnone⟩
        · rw [if_neg h3] at hfail ⊢
          exact ⟨rfl, Or.inl rfl, fun _ => rfl⟩
      · rw [if_neg h2] at hfail ⊢
        by_cases h4 : inp.participantInsertOk = true
        · rw [if_pos h4] at hfail
          simp at hfail
        · rw [if_neg h4] at hfail ⊢
          exact ⟨rfl, Or.inl rfl, fun _ => rfl⟩
  refine ⟨hmark, ?_, ?_, ?_⟩
  · intro hfail
    exact (hreg hfail).1
  · intro hfail
    exact (hreg hfail).2.1
  · intro hfail hex
    exact (hreg hfail).2.2 hex

/-- Witness for C9 amended: a markAttendance whose row write fails leaves
the state untouched, and a registration whose participant insert fails
while under-capacity teams exist leaves the store untouched. -/
theorem failed_operations_leave_state_witness :
    ((markAttendance attSt0 1 Status.attend none none none ("t1")
      false).ok = false) ∧
    ((markAttendance attSt0 1 Status.attend none none none ("t1")
      false).state = attSt0) ∧
    ((handleAddParticipant initialTeamsState regPartFail).2 = false) ∧
    ((handleAddParticipant initialTeamsState regPartFail).1.db
      = initialTeamsState.db) := by
  have h := failed_operations_leave_state attSt0 1 Status.attend none none
    none ("t1") false initialTeamsState regPartFail
  refine ⟨by decide, h.1 (by decide), by decide, ?_⟩
  exact h.2.2.2 (by decide)
    ⟨{ id := 1, name := ("Team 1"), members := [] }, by decide, by decide⟩

/-- The Math.floor(Math.random() * len) index stays inside the list, so the
randomly selected element is a member of it. -/
theorem getD_mod_mem {α : Type} (l : List α) (d : α) (k : Nat)
    (h : l ≠ []) : l.getD (k % l.length) d ∈ l := by
  have hlen : 0 < l.length := List.length_pos.mpr h
  have hk : k % l.length < l.length := Nat.mod_lt _ hlen
  rw [List.getD_eq_getElem l d hk]
  exact List.getElem_mem hk

/-- A list of naturals all bounded by c sums to at most c per element. -/
theorem sum_le_of_forall_le (l : List Nat) (c : Nat)
    (h : ∀ x ∈ l, x ≤ c) : l.sum ≤ c * l.length := by
  induction l with
  | nil => simp
  | cons a t ih =>
    rw [List.sum_cons, List.length_cons, Nat.mul_succ]
    have ha := h a (List.mem_cons_self a t)
    have ht := ih (fun x hx => h x (List.mem_cons_of_mem a hx))
    omega

/-- A list of naturals bounded by c whose sum reaches c per element is
constantly c. -/
theorem all_eq_of_sum_eq (l : List Nat) (c : Nat) (h : ∀ x ∈ l, x ≤ c)
    (hs : l.sum = c * l.length) : ∀ x ∈ l, x = c := by
  induction l with
  | nil => intro x hx; cases hx
  | cons a t ih =>
    rw [List.sum_cons, List.length_cons, Nat.mul_succ] at hs
    have ha := h a (List.mem_cons_self a t)
    have hle := sum_le_of_forall_le t c
      (fun x hx => h x (List.mem_cons_of_mem a hx))
    have hA : a = c := by omega
    have hT : t.sum = c * t.length := by omega
    intro x hx
    cases List.mem_cons.mp hx with
    | inl hxa => rw [hxa]; exact hA
    | inr hxt =>
      exact ih (fun y hy => h y (List.mem_cons_of_mem a hy)) hT x hxt

/-- A constant list sums to the constant times its length. -/
theorem sum_eq_of_all_eq (l : List Nat) (c : Nat) (h : ∀ x ∈ l, x = c) :
    l.sum = c * l.length := by
  induction l with
  | nil => simp
  | cons a t ih =>
    rw [List.sum_cons, List.length_cons, Nat.mul_succ]
    have ha := h a (List.mem_cons_self a t)
    have ht := ih (fun x hx => h x (List.mem_cons_of_mem a hx))
    omega

/-- Behavior of handleAddParticipant when some team is under capacity and
the participant insert succeeds: the randomly chosen team is one of the
under-capacity teams, no group is created, and the one participant row is
appended referencing the chosen team. -/
theorem handleAddParticipant_available (st : TeamsPageState)
    (inp : RegInput) (hname : jsTrim inp.name ≠ (""))
    (hp : inp.participantInsertOk = true) (t : Team) (ht : t ∈ st.teams)
    (hlt : t.members.length < MAX_MEMBERS_PER_TEAM) :
    ∃ chosen ∈ st.teams, chosen.members.length < MAX_MEMBERS_PER_TEAM ∧
      (handleAddParticipant st inp).2 = true ∧
      (handleAddParticipant st inp).1.db.groups = st.db.groups ∧
      (handleAddParticipant st inp).1.db.participants
        = st.db.participants ++ [mkParticipantRow inp chosen.id] ∧
      (handleAddParticipant st inp).1.teams
        = st.teams.map (fun x => if x.id == chosen.id then
            { x with members := x.members ++ [mkLocalParticipant inp] }
            else x) ∧
      (handleAddParticipant st inp).1.totalParticipants
        = st.totalParticipants + 1 := by
  have htf : t ∈ st.teams.filter
      (fun t => decide (t.members.length < MAX_MEMBERS_PER_TEAM)) :=
    List.mem_filter.mpr ⟨ht, by simpa using hlt⟩
  have hne : st.teams.filter
      (fun t => decide (t.members.length < MAX_MEMBERS_PER_TEAM)) ≠ [] := by
    intro hc
    rw [hc] at htf
    cases htf
  have hemp : (st.teams.filter
      (fun t => decide (t.members.length < MAX_MEMBERS_PER_TEAM))).isEmpty
      = false := by
    cases hh : (st.teams.filter
        (fun t => decide (t.members.length < MAX_MEMBERS_PER_TEAM))).isEmpty
    · rfl
    · rw [List.isEmpty_iff] at hh
      exact absurd hh hne
  have hchosen := getD_mod_mem
    (st.teams.filter
      (fun t => decide (t.members.length < MAX_MEMBERS_PER_TEAM)))
    { id := 0, name := ("") , members := [] } inp.pick hne
  have hcmem := (List.mem_filter.mp hchosen).1
  have hclt : ((st.teams.filter
      (fun t => decide (t.members.length < MAX_MEMBERS_PER_TEAM))).getD
      (inp.pick % (st.teams.filter
        (fun t => decide (t.members.length < MAX_MEMBERS_PER_TEAM))).length)
      { id := 0, name := ("") , members := [] }).members.length
      < MAX_MEMBERS_PER_TEAM := by
    have := (List.mem_filter.mp hchosen).2
    simpa using this
  refine ⟨_, hcmem, hclt, ?_, ?_, ?_, ?_, ?_⟩ <;>
    (unfold handleAddParticipant
     rw [if_neg hname, if_neg (by rw [hemp]; decide :
       ¬((st.teams.filter
         (fun t => decide (t.members.length < MAX_MEMBERS_PER_TEAM))).isEmpty
         = true)), if_pos hp]) <;> rfl

/-- Behavior of handleAddParticipant when every team is full and both
inserts succeed: a new group named after the current team count is created
and the participant row references it. -/
theorem handleAddParticipant_overflow (st : TeamsPageState)
    (inp : RegInput) (hname : jsTrim inp.name ≠ (""))
    (hg : inp.groupInsertOk = true) (hp : inp.participantInsertOk = true)
    (hfull : ∀ t ∈ st.teams,
      ¬ t.members.length < MAX_MEMBERS_PER_TEAM) :
    (handleAddParticipant st inp).2 = true ∧
    (handleAddParticipant st inp).1.db.groups
      = st.db.groups
        ++ [{ id := inp.newGroupId,
              name := ("Team ") ++ toString (st.teams.length + 1) }] ∧
    (handleAddParticipant st inp).1.db.participants
      = st.db.participants ++ [mkParticipantRow inp inp.newGroupId] ∧
    (handleAddParticipant st inp).1.teams.length
      = st.teams.length + 1 := by
  have hnil : st.teams.filter
      (fun t => decide (t.members.length < MAX_MEMBERS_PER_TEAM)) = [] := by
    apply List.filter_eq_nil_iff.mpr
    intro t ht
    simpa using hfull t ht
  have hemp : (st.teams.filter
      (fun t => decide (t.members.length < MAX_MEMBERS_PER_TEAM))).isEmpty
      = true := by
    rw [hnil]
    rfl
  refine ⟨?_, ?_, ?_, ?_⟩ <;>
    (unfold handleAddParticipant
     rw [if_neg hname, if_pos hemp, if_pos hg, if_pos hp]) <;>
    simp [insertParticipant]

/-- One successful registration below 40 participants keeps the scenario
invariant: some team is under capacity, so the participant lands in one and
only that team grows by one. -/
theorem scenario_step (st : TeamsPageState) (n : Nat) (inp : RegInput)
    (hInv : ScenarioInv st n) (hn : n < 40) (hv : ValidReg inp) :
    ScenarioInv (handleAddParticipant st inp).1 (n + 1) := by
  obtain ⟨hlen, hnd, hcap, hsum⟩ := hInv
  obtain ⟨hname, hg, hp⟩ := hv
  obtain ⟨t, ht, hlt⟩ : ∃ t ∈ st.teams,
      t.members.length < MAX_MEMBERS_PER_TEAM := by
    by_contra hno
    push_neg at hno
    have hall : ∀ x ∈ teamSizes st.teams, x = MAX_MEMBERS_PER_TEAM := by
      intro x hx
      obtain ⟨u, hu, hux⟩ := List.mem_map.mp hx
      rw [← hux]
      exact Nat.le_antisymm (hcap u hu) (hno u hu)
    have h40 : (teamSizes st.teams).sum
        = MAX_MEMBERS_PER_TEAM * (teamSizes st.teams).length :=
      sum_eq_of_all_eq _ _ hall
    have hlensz : (teamSizes st.teams).length = DEFAULT_TEAMS := by
      unfold teamSizes
      rw [List.length_map, hlen]
    rw [hlensz] at h40
    have hmax : MAX_MEMBERS_PER_TEAM * DEFAULT_TEAMS = 40 := rfl
    omega
  obtain ⟨chosen, hcmem, hclt, hok, hgroups, hparts, hteams, htot⟩ :=
    handleAddParticipant_available st inp hname hp t ht hlt
  have hnd2 : (st.teams.map (fun x => x.id)).Nodup := hnd
  obtain ⟨l₁, l₂, hsplit, hmap, hl₁, hl₂⟩ := update_by_key_split
    (fun x => x.id)
    (fun x => { x with members := x.members ++ [mkLocalParticipant inp] })
    st.teams chosen hnd2 hcmem
  have hteams2 : (handleAddParticipant st inp).1.teams
      = l₁ ++ { chosen with
          members := chosen.members ++ [mkLocalParticipant inp] } :: l₂ := by
    rw [hteams]
    exact hmap
  refine ⟨?_, ?_, ?_, ?_⟩
  · rw [hteams2]
    rw [hsplit] at hlen
    simpa using hlen
  · rw [hteams2]
    rw [hsplit] at hnd2
    simp only [List.map_append, List.map_cons] at hnd2 ⊢
    exact hnd2
  · intro x hx
    rw [hteams2] at hx
    cases List.mem_append.mp hx with
    | inl h1 =>
      refine hcap x ?_
      rw [hsplit]
      exact List.mem_append_left _ h1
    | inr h2 =>
      cases List.mem_cons.mp h2 with
      | inl hx0 =>
        rw [hx0]
        simp only [List.length_append, List.length_singleton]
        omega
      | inr h3 =>
        refine hcap x ?_
        rw [hsplit]
        exact List.mem_append_right _ (List.mem_cons_of_mem _ h3)
  · rw [hteams2]
    unfold teamSizes at hsum ⊢
    rw [hsplit] at hsum
    simp only [List.map_append, List.map_cons, List.sum_append,
      List.sum_cons, List.length_append, List.length_singleton] at hsum ⊢
    omega

/-- Registering a list of valid participants keeps the scenario invariant
as long as capacity is not exceeded. -/
theorem scenario_many (inps : List RegInput) :
    ∀ (st : TeamsPageState) (n : Nat), ScenarioInv st n →
      (∀ i ∈ inps, ValidReg i) → n + inps.length ≤ 40 →
      ScenarioInv (registerMany st inps) (n + inps.length) := by
  induction inps with
  | nil =>
    intro st n h _ _
    simpa [registerMany] using h
  | cons a rest ih =>
    intro st n hInv hv hle
    rw [List.length_cons] at hle
    have hstep := scenario_step st n a hInv (by omega)
      (hv a (List.mem_cons_self a rest))
    have hgoal := ih (handleAddParticipant st a).1 (n + 1) hstep
      (fun i hi => hv i (List.mem_cons_of_mem a hi)) (by omega)
    unfold registerMany at hgoal ⊢
    rw [List.foldl_cons, List.length_cons]
    have harith : n + (rest.length + 1) = n + 1 + rest.length := by omega
    rw [harith]
    exact hgoal

/-- C4: with at least one under-capacity team, a successful registration
assigns the new participant to one of the under-capacity teams and creates
no group; with every team full it creates a group named Team (n+1) for the
current team count n and assigns the participant to it; and from the eight
seeded teams of capacity five, forty registrations (whatever the random
draws) leave eight full teams, so the forty-first creates the ninth group
Team 9 and assigns the participant there. -/
theorem registerParticipant_assignment (st : TeamsPageState)
    (inp : RegInput) (hname : jsTrim inp.name ≠ (""))
    (hg : inp.groupInsertOk = true) (hp : inp.participantInsertOk = true) :
    ((∃ t ∈ st.teams, t.members.length < MAX_MEMBERS_PER_TEAM) →
      (handleAddParticipant st inp).2 = true ∧
      (handleAddParticipant st inp).1.db.groups = st.db.groups ∧
      ∃ chosen ∈ st.teams, chosen.members.length < MAX_MEMBERS_PER_TEAM ∧
        (handleAddParticipant st inp).1.db.participants
          = st.db.participants ++ [mkParticipantRow inp chosen.id]) ∧
    ((∀ t ∈ st.teams, ¬ t.members.length < MAX_MEMBERS_PER_TEAM) →
      (handleAddParticipant st inp).2 = true ∧
      (handleAddParticipant st inp).1.db.groups
        = st.db.groups
          ++ [{ id := inp.newGroupId,
                name := ("Team ") ++ toString (st.teams.length + 1) }] ∧
      (handleAddParticipant st inp).1.db.participants
        = st.db.participants ++ [mkParticipantRow inp inp.newGroupId]) ∧
    (∀ inps : List RegInput, inps.length = 40 →
      (∀ i ∈ inps, ValidReg i) →
      (registerMany initialTeamsState inps).teams.length = 8 ∧
      (handleAddParticipant (registerMany initialTeamsState inps)
        inp).1.teams.length = 9 ∧
      (handleAddParticipant (registerMany initialTeamsState inps)
          inp).1.db.groups
        = (registerMany initialTeamsState inps).db.groups
          ++ [{ id := inp.newGroupId, name := ("Team 9") }] ∧
      (handleAddParticipant (registerMany initialTeamsState inps)
          inp).1.db.participants
        = (registerMany initialTeamsState inps).db.participants
          ++ [mkParticipantRow inp inp.newGroupId]) := by
  refine ⟨?_, ?_, ?_⟩
  · intro ⟨t, ht, hlt⟩
    obtain ⟨chosen, hcmem, hclt, hok, hgroups, hparts, _, _⟩ :=
      handleAddParticipant_available st inp hname hp t ht hlt
    exact ⟨hok, hgroups, chosen, hcmem, hclt, hparts⟩
  · intro hfull
    obtain ⟨hok, hgroups, hparts, _⟩ :=
      handleAddParticipant_overflow st inp hname hg hp hfull
    exact ⟨hok, hgroups, hparts⟩
  · intro inps hlen40 hvall
    have hInv0 : ScenarioInv initialTeamsState 0 := by decide
    have hfin := scenario_many inps initialTeamsState 0 hInv0 hvall
      (by rw [hlen40])
    rw [hlen40] at hfin
    have hfin2 : ScenarioInv (registerMany initialTeamsState inps) 40 := by
      simpa using hfin
    obtain ⟨hlen8, hnd, hcap, hsum⟩ := hfin2
    have hall5 : ∀ u ∈ (registerMany initialTeamsState inps).teams,
        u.members.length = MAX_MEMBERS_PER_TEAM := by
      intro u hu
      have hx : u.members.length
          ∈ teamSizes (registerMany initialTeamsState inps).teams :=
        List.mem_map_of_mem (fun t => t.members.length) hu
      refine all_eq_of_sum_eq _ MAX_MEMBERS_PER_TEAM ?_ ?_ _ hx
      · intro x hxx
        obtain ⟨w, hw, hwx⟩ := List.mem_map.mp hxx
        rw [← hwx]
        exact hcap w hw
      · have hlensz :
            (teamSizes (registerMany initialTeamsState inps).teams).length
            = DEFAULT_TEAMS := by
          unfold teamSizes
          rw [List.length_map, hlen8]
        rw [hlensz, hsum]
        rfl
    have hfull : ∀ u ∈ (registerMany initialTeamsState inps).teams,
        ¬ u.members.length < MAX_MEMBERS_PER_TEAM := by
      intro u hu
      rw [hall5 u hu]
      omega
    obtain ⟨hok, hgroups, hparts, hlen9⟩ := handleAddParticipant_overflow
      (registerMany initialTeamsState inps) inp hname hg hp hfull
    have hL8 : (registerMany initialTeamsState inps).teams.length = 8 := by
      rw [hlen8]
      rfl
    refine ⟨hL8, ?_, ?_, hparts⟩
    · rw [hlen9, hL8]
    · rw [hgroups, hL8]
      have hname9 : ("Team ") ++ toString (8 + 1) = ("Team 9") := by decide
      rw [hname9]

/-- Witness for C4: registering Zed into the seeded eight empty teams
succeeds, creates no group, and seats Zed in one of the under-capacity
teams. -/
theorem registerParticipant_assignment_witness :
    jsTrim regOk.name ≠ ("") ∧
    (handleAddParticipant initialTeamsState regOk).2 = true ∧
    (handleAddParticipant initialTeamsState regOk).1.db.groups
      = initialTeamsState.db.groups := by
  have h := registerParticipant_assignment initialTeamsState regOk
    (by decide) (by decide) (by decide)
  have h1 := h.1 ⟨{ id := 1, name := ("Team 1"), members := [] },
    by decide, by decide⟩
  exact ⟨by decide, h1.1, h1.2.1⟩

/-- An empty pairRecords means every row fails the pair predicate. -/
theorem pairRecords_forall_of_nil (l : List AttendanceRecord) (mid : Nat)
    (d : String) (h : pairRecords l mid d = []) :
    ∀ x ∈ l,
      (x.committee_member_id == mid && x.attendance_date == d) = false := by
  intro x hx
  have hh : List.filter
      (fun r => r.committee_member_id == mid && r.attendance_date == d) l
      = [] := h
  have := List.filter_eq_nil_iff.mp hh x hx
  rwa [Bool.not_eq_true] at this

/-- A member view entry stays in sync when a row for a different member is
appended to the table. -/
theorem syncedMem_of_append (T : List AttendanceRecord) (d : String)
    (x : MemberAttendance) (newRec : AttendanceRecord)
    (hx : SyncedMem T d x)
    (hne : newRec.committee_member_id ≠ x.member_id) :
    SyncedMem (T ++ [newRec]) d x := by
  cases hx with
  | inl h =>
    left
    refine ⟨h.1, ?_⟩
    rw [pairRecords_append, h.2, List.nil_append]
    apply pairRecords_nil_of_forall
    intro y hy
    rw [List.mem_singleton.mp hy]
    rw [beq_eq_false_iff_ne.mpr hne]
    exact Bool.false_and _
  | inr h =>
    obtain ⟨r, hr, h1, h2, h3⟩ := h
    exact Or.inr ⟨r, List.mem_append_left _ hr, h1, h2, h3⟩

/-- A member view entry stays in sync when the row of a different member is
rewritten in place. -/
theorem syncedMem_of_update (l₁ l₂ : List AttendanceRecord) (d : String)
    (r0 u : AttendanceRecord) (x : MemberAttendance)
    (hx : SyncedMem (l₁ ++ r0 :: l₂) d x)
    (hucm : u.committee_member_id ≠ x.member_id)
    (hr0cm : r0.committee_member_id ≠ x.member_id) :
    SyncedMem (l₁ ++ u :: l₂) d x := by
  cases hx with
  | inl h =>
    left
    refine ⟨h.1, ?_⟩
    have hall := pairRecords_forall_of_nil _ _ _ h.2
    apply pairRecords_nil_of_forall
    intro y hy
    cases List.mem_append.mp hy with
    | inl h1 => exact hall y (List.mem_append_left _ h1)
    | inr h2 =>
      cases List.mem_cons.mp h2 with
      | inl hyu =>
        rw [hyu]
        rw [beq_eq_false_iff_ne.mpr hucm]
        exact Bool.false_and _
      | inr h3 =>
        exact hall y
          (List.mem_append_right _ (List.mem_cons_of_mem _ h3))
  | inr h =>
    obtain ⟨r, hr, h1, h2, h3⟩ := h
    right
    cases List.mem_append.mp hr with
    | inl hin => exact ⟨r, List.mem_append_left _ hin, h1, h2, h3⟩
    | inr hcons =>
      cases List.mem_cons.mp hcons with
      | inl heq =>
        exfalso
        rw [heq] at h2
        exact hr0cm h2
      | inr hin2 =>
        exact ⟨r, List.mem_append_right _ (List.mem_cons_of_mem _ hin2),
          h1, h2, h3⟩

/-- Appending a row for a pair no existing row matches preserves the
per-pair uniqueness invariant. -/
theorem uniquePerPair_insert (T : List AttendanceRecord) (mid : Nat)
    (d : String) (ad : AttendanceData) (nid : Nat)
    (hU : UniquePerPair T) (hp : hasPairRow T mid d = false)
    (hcm : ad.committee_member_id = mid) (hd : ad.attendance_date = d) :
    UniquePerPair (T ++ [insertRecord ad nid]) := by
  unfold UniquePerPair at hU ⊢
  rw [List.pairwise_append]
  refine ⟨hU, List.pairwise_singleton _ _, ?_⟩
  intro a ha b hb
  rw [List.mem_singleton.mp hb]
  intro hc
  have hf := hasPairRow_false_forall T mid d hp a ha
  have h1 : a.committee_member_id = mid := by
    rw [hc.1]
    exact hcm
  have h2 : a.attendance_date = d := by
    rw [hc.2]
    exact hd
  rw [beq_iff_eq.mpr h1, beq_iff_eq.mpr h2] at hf
  cases hf

/-- Rewriting the unique row for a pair in place preserves the per-pair
uniqueness invariant, given the constraint check that no other row matches
the pair. -/
theorem uniquePerPair_update (l₁ l₂ : List AttendanceRecord)
    (r0 u : AttendanceRecord) (mid : Nat) (d : String)
    (hU : UniquePerPair (l₁ ++ r0 :: l₂))
    (hconf : ∀ x ∈ l₁ ++ r0 :: l₂, x.id ≠ r0.id →
      (x.committee_member_id == mid && x.attendance_date == d) = false)
    (hl₁ : ∀ x ∈ l₁, x.id ≠ r0.id) (hl₂ : ∀ x ∈ l₂, x.id ≠ r0.id)
    (hucm : u.committee_member_id = mid) (hud : u.attendance_date = d) :
    UniquePerPair (l₁ ++ u :: l₂) := by
  unfold UniquePerPair at hU ⊢
  rw [List.pairwise_append] at hU ⊢
  obtain ⟨hU1, hU2, hcross⟩ := hU
  refine ⟨hU1, ?_, ?_⟩
  · rw [List.pairwise_cons]
    refine ⟨?_, (List.pairwise_cons.mp hU2).2⟩
    intro b hb hc
    have hbmem : b ∈ l₁ ++ r0 :: l₂ :=
      List.mem_append_right _ (List.mem_cons_of_mem _ hb)
    have hf := hconf b hbmem (hl₂ b hb)
    have h1 : b.committee_member_id = mid := by
      rw [← hc.1]
      exact hucm
    have h2 : b.attendance_date = d := by
      rw [← hc.2]
      exact hud
    rw [beq_iff_eq.mpr h1, beq_iff_eq.mpr h2] at hf
    cases hf
  · intro a ha b hb
    cases List.mem_cons.mp hb with
    | inl hbu =>
      rw [hbu]
      intro hc
      have hf := hconf a (List.mem_append_left _ ha) (hl₁ a ha)
      have h1 : a.committee_member_id = mid := by
        rw [hc.1]
        exact hucm
      have h2 : a.attendance_date = d := by
        rw [hc.2]
        exact hud
      rw [beq_iff_eq.mpr h1, beq_iff_eq.mpr h2] at hf
      cases hf
    | inr hbl =>
      exact hcross a ha b (List.mem_cons_of_mem _ hbl)

/-- Invariants after a successful insert for a found member: uniqueness
holds in the grown table, the refreshed local view is synced with it, and
the id discipline is kept. -/
theorem markInsert_invariants (st : AttState) (member : MemberAttendance)
    (ad : AttendanceData)
    (hU : UniquePerPair st.table) (hsync : Synced st)
    (hids : IdsNodup st.table) (hfresh : FreshId st)
    (hmem : member ∈ st.members)
    (hadcm : ad.committee_member_id = member.member_id)
    (hadd : ad.attendance_date = st.selectedDate)
    (hhp : hasPairRow st.table member.member_id st.selectedDate = false) :
    UniquePerPair (st.table ++ [insertRecord ad st.nextId]) ∧
    (∀ m ∈ st.members.map
        (fun m => if m.member_id == member.member_id then
          { localApply m ad with attendance_id := some st.nextId } else m),
      SyncedMem (st.table ++ [insertRecord ad st.nextId]) st.selectedDate
        m) ∧
    ((st.members.map
        (fun m => if m.member_id == member.member_id then
          { localApply m ad with attendance_id := some st.nextId } else m)).map
      (fun m => m.member_id)).Nodup ∧
    ((st.table ++ [insertRecord ad st.nextId]).map (fun r => r.id)).Nodup ∧
    (∀ r ∈ st.table ++ [insertRecord ad st.nextId],
      r.id < st.nextId + 1) := by
  have hnd2 : (st.members.map (fun m => m.member_id)).Nodup := hsync.2
  obtain ⟨m₁, m₂, hmsplit, hmmap, hm₁, hm₂⟩ := update_by_key_split
    (fun m => m.member_id)
    (fun m => { localApply m ad with attendance_id := some st.nextId })
    st.members member hnd2 hmem
  have hmmap2 : st.members.map
      (fun m => if m.member_id == member.member_id then
        { localApply m ad with attendance_id := some st.nextId } else m)
      = m₁ ++ { localApply member ad with
          attendance_id := some st.nextId } :: m₂ := hmmap
  refine ⟨?_, ?_, ?_, ?_, ?_⟩
  · exact uniquePerPair_insert st.table member.member_id st.selectedDate ad
      st.nextId hU hhp hadcm hadd
  · intro m hm
    rw [hmmap2] at hm
    have hnewcm : (insertRecord ad st.nextId).committee_member_id
        = member.member_id := hadcm
    cases List.mem_append.mp hm with
    | inl h1 =>
      have hxne : m.member_id ≠ member.member_id := hm₁ m h1
      have hxs : SyncedMem st.table st.selectedDate m :=
        hsync.1 m (by rw [hmsplit]; exact List.mem_append_left _ h1)
      exact syncedMem_of_append st.table st.selectedDate m
        (insertRecord ad st.nextId) hxs (by rw [hnewcm]; exact fun hc => hxne hc.symm)
    | inr h2 =>
      cases List.mem_cons.mp h2 with
      | inl hx0 =>
        rw [hx0]
        right
        refine ⟨insertRecord ad st.nextId,
          List.mem_append_right _ (List.mem_singleton.mpr rfl), rfl, ?_, ?_⟩
        · exact hadcm
        · exact hadd
      | inr h3 =>
        have hxne : m.member_id ≠ member.member_id := hm₂ m h3
        have hxs : SyncedMem st.table st.selectedDate m :=
          hsync.1 m (by
            rw [hmsplit]
            exact List.mem_append_right _ (List.mem_cons_of_mem _ h3))
        exact syncedMem_of_append st.table st.selectedDate m
          (insertRecord ad st.nextId) hxs
          (by rw [hnewcm]; exact fun hc => hxne hc.symm)
  · rw [hmmap2]
    rw [List.map_append, List.map_cons]
    have hpr : ({ localApply member ad with
        attendance_id := some st.nextId } : MemberAttendance).member_id
        = member.member_id := rfl
    rw [hpr, ← List.map_cons, ← List.map_append, ← hmsplit]
    exact hnd2
  · rw [List.map_append]
    rw [List.nodup_append]
    refine ⟨hids, List.nodup_singleton _, ?_⟩
    intro a ha hb
    have hb2 : a = st.nextId := List.mem_singleton.mp hb
    obtain ⟨r, hr, hrid⟩ := List.mem_map.mp ha
    have := hfresh r hr
    rw [hrid, hb2] at this
    exact Nat.lt_irrefl _ this
  · intro r hr
    cases List.mem_append.mp hr with
    | inl h1 =>
      have := hfresh r h1
      omega
    | inr h2 =>
      rw [List.mem_singleton.mp h2]
      exact Nat.lt_succ_self _

/-- Invariants after a successful in-place update for a found member whose
view carries the id of its row: uniqueness holds, the refreshed view is
synced, and the table ids are untouched. -/
theorem markUpdate_invariants (st : AttState) (member : MemberAttendance)
    (ad : AttendanceData) (r0 : AttendanceRecord)
    (hU : UniquePerPair st.table) (hsync : Synced st)
    (hids : IdsNodup st.table) (hfresh : FreshId st)
    (hmem : member ∈ st.members)
    (hadcm : ad.committee_member_id = member.member_id)
    (hadd : ad.attendance_date = st.selectedDate)
    (hr0mem : r0 ∈ st.table)
    (hcm : r0.committee_member_id = member.member_id)
    (hstok : member.attendance_id = some r0.id)
    (hconf : updateConflict st.table r0.id member.member_id st.selectedDate
      = false) :
    UniquePerPair (st.table.map
      (fun r => if r.id == r0.id then applyUpdate r ad else r)) ∧
    (∀ m ∈ st.members.map
        (fun m => if m.member_id == member.member_id then localApply m ad
          else m),
      SyncedMem (st.table.map
        (fun r => if r.id == r0.id then applyUpdate r ad else r))
        st.selectedDate m) ∧
    ((st.members.map
        (fun m => if m.member_id == member.member_id then localApply m ad
          else m)).map (fun m => m.member_id)).Nodup ∧
    ((st.table.map
        (fun r => if r.id == r0.id then applyUpdate r ad else r)).map
      (fun r => r.id)) = st.table.map (fun r => r.id) ∧
    (∀ r ∈ st.table.map
        (fun r => if r.id == r0.id then applyUpdate r ad else r),
      r.id < st.nextId) := by
  have hids2 : (st.table.map (fun r => r.id)).Nodup := hids
  obtain ⟨l₁, l₂, hsplit, hmap, hl₁, hl₂⟩ := update_by_key_split
    (fun r => r.id) (fun r => applyUpdate r ad) st.table r0 hids2 hr0mem
  have hmap2 : st.table.map
      (fun r => if r.id == r0.id then applyUpdate r ad else r)
      = l₁ ++ applyUpdate r0 ad :: l₂ := hmap
  have hnd2 : (st.members.map (fun m => m.member_id)).Nodup := hsync.2
  obtain ⟨m₁, m₂, hmsplit, hmmap, hm₁, hm₂⟩ := update_by_key_split
    (fun m => m.member_id) (fun m => localApply m ad) st.members member
    hnd2 hmem
  have hmmap2 : st.members.map
      (fun m => if m.member_id == member.member_id then localApply m ad
        else m)
      = m₁ ++ localApply member ad :: m₂ := hmmap
  have hucm : (applyUpdate r0 ad).committee_member_id = member.member_id :=
    hadcm
  have hforall := updateConflict_false_forall st.table r0.id member.member_id
    st.selectedDate hconf
  refine ⟨?_, ?_, ?_, ?_, ?_⟩
  · rw [hmap2]
    refine uniquePerPair_update l₁ l₂ r0 (applyUpdate r0 ad)
      member.member_id st.selectedDate (by rw [← hsplit]; exact hU)
      (by rw [← hsplit]; exact hforall) hl₁ hl₂ hadcm hadd
  · intro m hm
    rw [hmmap2] at hm
    rw [hmap2]
    cases List.mem_append.mp hm with
    | inl h1 =>
      have hxne : m.member_id ≠ member.member_id := hm₁ m h1
      have hxs : SyncedMem st.table st.selectedDate m :=
        hsync.1 m (by rw [hmsplit]; exact List.mem_append_left _ h1)
      rw [hsplit] at hxs
      exact syncedMem_of_update l₁ l₂ st.selectedDate r0 (applyUpdate r0 ad)
        m hxs (by rw [hucm]; exact fun hc => hxne hc.symm)
        (by rw [hcm]; exact fun hc => hxne hc.symm)
    | inr h2 =>
      cases List.mem_cons.mp h2 with
      | inl hx0 =>
        rw [hx0]
        right
        refine ⟨applyUpdate r0 ad,
          List.mem_append_right _ (List.mem_cons_self _ _), ?_, ?_, ?_⟩
        · have h1 : (localApply member ad).attendance_id
              = member.attendance_id := rfl
          rw [h1, hstok]
          rfl
        · exact hadcm
        · exact hadd
      | inr h3 =>
        have hxne : m.member_id ≠ member.member_id := hm₂ m h3
        have hxs : SyncedMem st.table st.selectedDate m :=
          hsync.1 m (by
            rw [hmsplit]
            exact List.mem_append_right _ (List.mem_cons_of_mem _ h3))
        rw [hsplit] at hxs
        exact syncedMem_of_update l₁ l₂ st.selectedDate r0 (applyUpdate r0 ad)
          m hxs (by rw [hucm]; exact fun hc => hxne hc.symm)
          (by rw [hcm]; exact fun hc => hxne hc.symm)
  · rw [hmmap2]
    rw [List.map_append, List.map_cons]
    have hpr : (localApply member ad).member_id = member.member_id := rfl
    rw [hpr, ← List.map_cons, ← List.map_append, ← hmsplit]
    exact hnd2
  · rw [hmap2]
    rw [hsplit]
    rw [List.map_append, List.map_cons, List.map_append, List.map_cons]
    have hpr : (applyUpdate r0 ad).id = r0.id := rfl
    rw [hpr]
  · intro r hr
    rw [hmap2] at hr
    cases List.mem_append.mp hr with
    | inl h1 =>
      exact hfresh r (by rw [hsplit]; exact List.mem_append_left _ h1)
    | inr h2 =>
      cases List.mem_cons.mp h2 with
      | inl hx0 =>
        rw [hx0]
        have hpr : (applyUpdate r0 ad).id = r0.id := rfl
        rw [hpr]
        exact hfresh r0 hr0mem
      | inr h3 =>
        refine hfresh r ?_
        rw [hsplit]
        exact List.mem_append_right _ (List.mem_cons_of_mem _ h3)

/-- C1: on any state satisfying the store invariants, markAttendance keeps
at most one attendance row per (member, date) pair; when the pair has no
row (the fetched view shows no attendance id) a successful call appends
exactly the one new row; whenever the view carries an attendance id the
call never adds a row — the table ids are unchanged, the matching row is
rewritten in place; and a successful call re-establishes all invariants,
so every subsequent call for the same pair takes the update path. -/
theorem markAttendance_unique_per_pair (st : AttState) (memberId : Nat)
    (status : Status) (photoUrl : Option String)
    (location : Option LocationData) (uploadResult : Option String)
    (now : String) (writeOk : Bool)
    (hU : UniquePerPair st.table) (hsync : Synced st)
    (hids : IdsNodup st.table) (hfresh : FreshId st) :
    ∃ res, markAttendance st memberId status photoUrl location uploadResult
        now writeOk = res ∧
      UniquePerPair res.state.table ∧
      (∀ member, st.members.find? (fun m => m.member_id == memberId)
          = some member → member.attendance_id = none → res.ok = true →
        res.state.table = st.table
          ++ [insertRecord (mkAttendanceData memberId st.selectedDate status
              (computeFinalPhotoUrl photoUrl uploadResult) location now)
              st.nextId]) ∧
      (∀ member aid, st.members.find? (fun m => m.member_id == memberId)
          = some member → member.attendance_id = some aid →
        res.state.table.map (fun r => r.id)
          = st.table.map (fun r => r.id)) ∧
      (res.ok = true →
        Synced res.state ∧ IdsNodup res.state.table ∧
        FreshId res.state) := by
  cases hfind : st.members.find? (fun m => m.member_id == memberId) with
  | none =>
    refine ⟨{ state := st, ok := false }, ?_, hU, ?_, ?_, ?_⟩
    · unfold markAttendance
      rw [hfind]
    · intro member h
      cases h
    · intro member aid h _
      rfl
    · intro hok
      cases hok
  | some member =>
    have hpm := @List.find?_some MemberAttendance
      (fun m => m.member_id == memberId) member st.members hfind
    have hmid : member.member_id = memberId := beq_iff_eq.mp hpm
    subst hmid
    have hmem : member ∈ st.members := List.mem_of_find?_eq_some hfind
    cases hatt : member.attendance_id with
    | none =>
      have hred := (markAttendance_found st member.member_id status photoUrl
        location uploadResult now writeOk member hfind).trans
        (markMember_insert st member member.member_id status photoUrl
          location uploadResult now writeOk hatt)
      cases hcond : writeOk
          && !(hasPairRow st.table member.member_id st.selectedDate) with
      | false =>
        have hres : markAttendance st member.member_id status photoUrl
            location uploadResult now writeOk
            = { state := st, ok := false } := by
          rw [hred]
          unfold markInsert
          rw [hcond, if_neg (by decide : ¬(false = true))]
        refine ⟨{ state := st, ok := false }, hres, hU, ?_, ?_, ?_⟩
        · intro member' h' _ hok'
          cases hok'
        · intro member' aid h' _
          rfl
        · intro hok'
          cases hok'
      | true =>
        have hhp : hasPairRow st.table member.member_id st.selectedDate
            = false := by
          cases hhh : hasPairRow st.table member.member_id st.selectedDate with
          | false => rfl
          | true => rw [hhh] at hcond; simp at hcond
        have hres : markAttendance st member.member_id status photoUrl
            location uploadResult now writeOk
            = { state := { st with
                  table := st.table ++ [insertRecord (mkAttendanceData
                    member.member_id st.selectedDate status
                    (computeFinalPhotoUrl photoUrl uploadResult) location
                    now) st.nextId]
                  members := st.members.map
                    (fun m => if m.member_id == member.member_id then
                      { localApply m (mkAttendanceData member.member_id
                          st.selectedDate status (computeFinalPhotoUrl
                          photoUrl uploadResult) location now) with
                        attendance_id := some st.nextId }
                      else m)
                  nextId := st.nextId + 1 }
                ok := true } := by
          rw [hred]
          unfold markInsert
          rw [hcond, if_pos (rfl : true = true)]
        obtain ⟨hU2, hS2, hN2, hI2, hF2⟩ := markInsert_invariants st member
          (mkAttendanceData member.member_id st.selectedDate status
            (computeFinalPhotoUrl photoUrl uploadResult) location now)
          hU hsync hids hfresh hmem rfl rfl hhp
        refine ⟨_, hres, hU2, ?_, ?_, ?_⟩
        · intro member' h' _ _
          rfl
        · intro member' aid h' hatt'
          have hmm : member' = member := (Option.some.inj h').symm
          rw [hmm, hatt] at hatt'
          cases hatt'
        · intro _
          exact ⟨⟨hS2, hN2⟩, hI2, hF2⟩
    | some aid0 =>
      obtain ⟨r0, hr0mem, hstok, hcm, hdate⟩ := by
        cases hsync.1 member hmem with
        | inl h => rw [hatt] at h; cases h.1
        | inr h => exact h
      have hr0id : r0.id = aid0 := by
        rw [hatt] at hstok
        exact (Option.some.inj hstok).symm
      subst hr0id
      have hred := (markAttendance_found st member.member_id status photoUrl
        location uploadResult now writeOk member hfind).trans
        (markMember_update st member member.member_id status photoUrl
          location uploadResult now writeOk r0.id hatt)
      cases hcond : writeOk
          && !(updateConflict st.table r0.id member.member_id
            st.selectedDate) with
      | false =>
        have hres : markAttendance st member.member_id status photoUrl
            location uploadResult now writeOk
            = { state := st, ok := false } := by
          rw [hred]
          unfold markUpdate
          rw [hcond, if_neg (by decide : ¬(false = true))]
        refine ⟨{ state := st, ok := false }, hres, hU, ?_, ?_, ?_⟩
        · intro member' h' _ hok'
          cases hok'
        · intro member' aid h' _
          rfl
        · intro hok'
          cases hok'
      | true =>
        have hconf : updateConflict st.table r0.id member.member_id
            st.selectedDate = false := by
          cases hhh : updateConflict st.table r0.id member.member_id
              st.selectedDate with
          | false => rfl
          | true => rw [hhh] at hcond; simp at hcond
        have hres : markAttendance st member.member_id status photoUrl
            location uploadResult now writeOk
            = { state := { st with
                  table := st.table.map
                    (fun r => if r.id == r0.id then applyUpdate r
                      (mkAttendanceData member.member_id st.selectedDate
                        status (computeFinalPhotoUrl photoUrl uploadResult)
                        location now)
                      else r)
                  members := st.members.map
                    (fun m => if m.member_id == member.member_id then
                      localApply m (mkAttendanceData member.member_id
                        st.selectedDate status (computeFinalPhotoUrl
                        photoUrl uploadResult) location now)
                      else m) }
                ok := true } := by
          rw [hred]
          unfold markUpdate
          rw [hcond, if_pos (rfl : true = true)]
        obtain ⟨hU2, hS2, hN2, hI2, hF2⟩ := markUpdate_invariants st member
          (mkAttendanceData member.member_id st.selectedDate status
            (computeFinalPhotoUrl photoUrl uploadResult) location now)
          r0 hU hsync hids hfresh hmem rfl rfl hr0mem hcm hatt hconf
        refine ⟨_, hres, hU2, ?_, ?_, ?_⟩
        · intro member' h' hatt' _
          have hmm : member' = member := (Option.some.inj h').symm
          rw [hmm, hatt] at hatt'
          cases hatt'
        · intro member' aid h' hatt'
          exact hI2
        · intro _
          refine ⟨⟨hS2, hN2⟩, ?_, hF2⟩
          show ((st.table.map (fun r => if r.id == r0.id then applyUpdate r
            (mkAttendanceData member.member_id st.selectedDate status
              (computeFinalPhotoUrl photoUrl uploadResult) location now)
            else r)).map (fun r => r.id)).Nodup
          rw [hI2]
          exact hids

/-- Witness for C1: marking member 1 on the synced empty-table state
succeeds and the resulting table still has at most one row per pair. -/
theorem markAttendance_unique_per_pair_witness :
    UniquePerPair attSt0.table ∧ Synced attSt0 ∧
    ∃ res, markAttendance attSt0 1 Status.absent none none none ("t1") true
        = res ∧ UniquePerPair res.state.table := by
  obtain ⟨res, hres, hU2, _, _, _⟩ := markAttendance_unique_per_pair attSt0
    1 Status.absent none none none ("t1") true (by decide) (by decide)
    (by decide) (by decide)
  exact ⟨by decide, by decide, res, hres, hU2⟩

end Funlish
